import Mathlib

/-!
Shallow embedding of `flask_mongoengine/connection.py` (repository
9nix00/flask-mongoengine) and verification of its specification claims.

Modelling conventions:
* Python values occurring in configuration / settings mappings are modelled by
  `PyVal`: strings, ints, bools, `None`, the `ReadPreference.PRIMARY` constant,
  opaque objects (`other`), plus nested lists and string-keyed dicts.
* Python dicts are modelled as insertion-ordered association lists with the
  Python mutation semantics: assignment updates an existing key in place and
  appends fresh keys at the end (`ainsert`), `pop` removes the key (`aerase`),
  `get`/`[]` is `alookup`.
* `str.lower()` is modelled for ASCII by `pyLower`; `str.startswith` by
  `pyStartsWith`; slicing `k[n:]` by `pyDrop`.
* Machine-level effects (sockets, the spawned `mongod` process, `atexit`,
  `print`, monkey patching of the `mongoengine.connection` module) either do
  not affect the registry semantics or are modelled by explicit oracle fields
  of `Ext` (the external world) and scalar state fields of `Reg`.
-/

set_option maxHeartbeats 1000000
set_option autoImplicit false

/-- Scalar (hashable) Python values. These can be used as dict keys of the
connection registries (Python requires registry keys to be hashable). -/
inductive Val where
  | str (s : String)
  | int (n : Int)
  | bool (b : Bool)
  | none
  | readPrefPrimary
  | other (k : Nat)
deriving DecidableEq, Repr

/-- General Python values: scalars, lists and string-keyed dicts.
Dict values are only ever inspected at the top level by the code under
verification, so nesting beyond what the code destructs is opaque. -/
inductive PyVal where
  | scalar (v : Val)
  | list (xs : List PyVal)
  | dict (d : List (String × PyVal))

/-- A Python settings dict: insertion-ordered string-keyed mapping. -/
abbrev PSettings := List (String × PyVal)

/-- Python dict lookup `d.get(k)` / `d[k]`: first (unique) matching key. -/
def alookup {κ β : Type} [DecidableEq κ] : List (κ × β) → κ → Option β
  | [], _ => Option.none
  | (k, v) :: t, k' => if k = k' then some v else alookup t k'

/-- Python dict assignment `d[k] = v`: update the existing entry in place,
or append a fresh entry at the end (insertion order). -/
def ainsert {κ β : Type} [DecidableEq κ] : List (κ × β) → κ → β → List (κ × β)
  | [], k, v => [(k, v)]
  | (k', v') :: t, k, v => if k' = k then (k, v) :: t else (k', v') :: ainsert t k v

/-- Python dict removal `d.pop(k, ...)` / `del d[k]` (keys are unique, so
removing every matching entry coincides with removing the single one). -/
def aerase {κ β : Type} [DecidableEq κ] : List (κ × β) → κ → List (κ × β)
  | [], _ => []
  | (k', v') :: t, k => if k' = k then aerase t k else (k', v') :: aerase t k

/-- The keys of an association list, in order. -/
def akeys {κ β : Type} (d : List (κ × β)) : List κ := d.map Prod.fst

/-- ASCII `str.lower()` on a single character. -/
def pyLowerChar (c : Char) : Char :=
  if c = 'A' then 'a' else if c = 'B' then 'b' else if c = 'C' then 'c'
  else if c = 'D' then 'd' else if c = 'E' then 'e' else if c = 'F' then 'f'
  else if c = 'G' then 'g' else if c = 'H' then 'h' else if c = 'I' then 'i'
  else if c = 'J' then 'j' else if c = 'K' then 'k' else if c = 'L' then 'l'
  else if c = 'M' then 'm' else if c = 'N' then 'n' else if c = 'O' then 'o'
  else if c = 'P' then 'p' else if c = 'Q' then 'q' else if c = 'R' then 'r'
  else if c = 'S' then 's' else if c = 'T' then 't' else if c = 'U' then 'u'
  else if c = 'V' then 'v' else if c = 'W' then 'w' else if c = 'X' then 'x'
  else if c = 'Y' then 'y' else if c = 'Z' then 'z' else c

/-- ASCII `str.lower()`. -/
def pyLower (s : String) : String := String.mk (s.data.map pyLowerChar)

/-- `p` is a leading run of `s` (character lists). -/
def charsLead : List Char → List Char → Bool
  | [], _ => true
  | _ :: _, [] => false
  | p :: ps, c :: cs => if p = c then charsLead ps cs else false

/-- Python `s.startswith(pat)`. -/
def pyStartsWith (s pat : String) : Bool := charsLead pat.data s.data

/-- Python slicing `s[n:]` (by code points). -/
def pyDrop (s : String) (n : Nat) : String := String.mk (s.data.drop n)

/-- Python `len(s)` (code points). -/
def pyLen (s : String) : Nat := s.data.length

/-- `DEFAULT_CONNECTION_NAME` from the source. -/
def DEFAULT_CONNECTION_NAME : String := "default-mongodb-connection"

/-- One iteration of the key-extraction loop of `_resolve_settings`:
with a truthy prefix, keep only keys carrying the prefix, strip it and
lower-case the remainder; otherwise lower-case every key. -/
def extractStep (pfx : Option String) (acc : PSettings) (kv : String × PyVal) : PSettings :=
  match pfx with
  | some p =>
    if p = "" then ainsert acc (pyLower kv.1) kv.2
    else if pyStartsWith kv.1 p then ainsert acc (pyLower (pyDrop kv.1 (pyLen p))) kv.2
    else acc
  | Option.none => ainsert acc (pyLower kv.1) kv.2

/-- The key-extraction loop of `_resolve_settings` over the whole input dict. -/
def extractSettings (d : PSettings) (pfx : Option String) : PSettings :=
  d.foldl (extractStep pfx) []

/-- `resolved_settings['name'] = resolved_settings.pop('db')` if a `db` key
exists, otherwise `resolved_settings['name'] = 'test'` (unconditionally). -/
def nameStep (r : PSettings) : PSettings :=
  match alookup r "db" with
  | some v => ainsert (aerase r "db") "name" v
  | Option.none => ainsert r "name" (.scalar (.str "test"))

/-- `resolved_settings[k] = resolved_settings.get(k, v)`. -/
def defaultStep (k : String) (v : PyVal) (r : PSettings) : PSettings :=
  ainsert r k ((alookup r k).getD v)

/-- Rename "replicaset" to "replicaSet" if present. -/
def replicaStep (r : PSettings) : PSettings :=
  match alookup r "replicaset" with
  | some v => ainsert (aerase r "replicaset") "replicaSet" v
  | Option.none => r

/-- Remove the password from the dict if `remove_pass` is `True`. -/
def passwordStep (remove_pass : Bool) (r : PSettings) : PSettings :=
  if remove_pass then aerase r "password" else r

/-- The body of `_resolve_settings` for a non-empty dict input: key extraction
followed by the normalization steps, in source order. -/
def resolveDict (d : PSettings) (pfx : Option String) (remove_pass : Bool) : PSettings :=
  passwordStep remove_pass (replicaStep
    (defaultStep "read_preference" (.scalar .readPrefPrimary)
      (defaultStep "username" (.scalar .none)
        (defaultStep "port" (.scalar (.int 27017))
          (defaultStep "host" (.scalar (.str "localhost"))
            (defaultStep "alias" (.scalar (.str DEFAULT_CONNECTION_NAME))
              (nameStep (extractSettings d pfx))))))))

/-- `_resolve_settings(settings, settings_prefix, remove_pass)`:
falsy (empty) or non-dict input is returned unchanged; otherwise the dict is
normalized by `resolveDict`. -/
def _resolve_settings (settings : PyVal) (pfx : Option String) (remove_pass : Bool) : PyVal :=
  match settings with
  | .dict d => if d.isEmpty then .dict d else .dict (resolveDict d pfx remove_pass)
  | v => v

-- Sanity checks of the resolver on concrete inputs.
example :
    _resolve_settings (.dict [("db", .scalar (.str "x"))]) Option.none true =
      .dict [("name", .scalar (.str "x")),
             ("alias", .scalar (.str DEFAULT_CONNECTION_NAME)),
             ("host", .scalar (.str "localhost")),
             ("port", .scalar (.int 27017)),
             ("username", .scalar .none),
             ("read_preference", .scalar .readPrefPrimary)] := rfl

example :
    _resolve_settings
      (.dict [("MONGODB_HOST", .scalar (.str "h")),
              ("MONGODB_PORT", .scalar (.int 1234)),
              ("MONGODB_DB", .scalar (.str "x"))]) (some "MONGODB_") true =
      .dict [("host", .scalar (.str "h")),
             ("port", .scalar (.int 1234)),
             ("name", .scalar (.str "x")),
             ("alias", .scalar (.str DEFAULT_CONNECTION_NAME)),
             ("username", .scalar .none),
             ("read_preference", .scalar .readPrefPrimary)] := rfl

example :
    _resolve_settings (.dict [("replicaset", .scalar (.str "rs"))]) Option.none true =
      .dict [("name", .scalar (.str "test")),
             ("alias", .scalar (.str DEFAULT_CONNECTION_NAME)),
             ("host", .scalar (.str "localhost")),
             ("port", .scalar (.int 27017)),
             ("username", .scalar .none),
             ("read_preference", .scalar .readPrefPrimary),
             ("replicaSet", .scalar (.str "rs"))] := rfl

/-! ### Connection manager state, errors and external world -/

/-- Python truthiness of a `PyVal`. -/
def PyVal.truthy : PyVal → Bool
  | .scalar (.bool b) => b
  | .scalar (.int n) => decide (n ≠ 0)
  | .scalar (.str s) => decide (s ≠ "")
  | .scalar .none => false
  | .scalar .readPrefPrimary => true
  | .scalar (.other _) => true
  | .list xs => !xs.isEmpty
  | .dict d => !d.isEmpty

/-- `isinstance(x, bool)`. -/
def PyVal.isBool : PyVal → Bool
  | .scalar (.bool _) => true
  | _ => false

/-- The boolean value of a flag (only meaningful after an `isBool` check;
for non-bools this coincides with no branch the code reaches). -/
def PyVal.asBool : PyVal → Bool
  | .scalar (.bool b) => b
  | _ => false

/-- Python `'%s' % v` for scalar values. -/
def pyStr : Val → String
  | .str s => s
  | .int n => toString n
  | .bool b => if b then "True" else "False"
  | .none => "None"
  | .readPrefPrimary => "Primary()"
  | .other k => "<object " ++ toString k ++ ">"

/-- Exception kinds raised by the module (one constructor per Python
exception class that can escape, plus `pyExc` for interpreter-level errors
such as KeyError/AttributeError/TypeError and `extExc` for exceptions of the
external client library that the module does not catch). -/
inductive Err where
  | invalidSettingsError (msg : String)
  | invalidURI (msg : String)
  | connectionError (msg : String)
  | runtimeError (msg : String)
  | mongoengineConnectionError (msg : String)
  | pyExc (name : String)
  | extExc (e : Nat)
deriving DecidableEq, Repr

/-- The module-level mutable state: `_connection_settings`, `_connections`,
`_tmpdir`, `_process`, plus whether the temp directory currently exists on
disk (for modelling `shutil.rmtree`). Registry keys are scalar values
(Python dict keys must be hashable). Clients are opaque ids. -/
structure Reg where
  settings : List (Val × PSettings)
  clients : List (Val × Nat)
  tmpdir : Option String
  tmpdirExists : Bool
  process : Option Nat

/-- The initial module state (empty registries). -/
def Reg.initial : Reg := ⟨[], [], Option.none, false, Option.none⟩

/-- The external world: the Flask app configuration, the mongoengine /
pymongo / mongomock library behaviour and the local machine, as oracles. -/
structure ExtWorld where
  /-- `__get_app_config(key)` = `app.config.get(key, False)`. -/
  appConfig : String → PyVal
  /-- `mongoengine.VERSION < (0, 10, 6)`. -/
  versionOld : Bool
  /-- whether `import mongomock` succeeds. -/
  mongomockAvailable : Bool
  /-- `mongoengine.connect(db_name, **conn_settings)`: a fresh client id, or
  an exception of the external library. -/
  connect : PyVal → PSettings → Except Nat Nat
  /-- `mongomock.MongoClient(**conn_settings)` (indexed by call counter). -/
  mockCtor : PSettings → Nat → Except Nat Nat
  /-- `mongoengine.connection.get_db(alias)` (external registry). -/
  getDb : Val → Nat
  /-- `str(e)` of an external exception. -/
  excStr : Nat → String
  /-- `_sys_exec("mongod --version")`: output, or an exception. -/
  mongodProbe : Except Unit String
  /-- `current_app.config.get('TEMP_DB_LOC', tempfile.mkdtemp())`. -/
  tmpdirChoice : String
  /-- the spawned `mongod` process handle. -/
  spawnPid : Nat
  /-- `MongoClient('localhost', port)` on readiness attempt `i`:
  `none` models `errors.ConnectionFailure`. -/
  attempt : Nat → Option Nat

/-- message of the non-boolean-flags `InvalidSettingsError`. -/
def boolFlagsMsg : String :=
  "`TESTING`, `TEMP_DB`, and `PRESERVE_TEMP_DB` must be boolean values"

/-- message of the mongomock-outside-tests `InvalidURI` error. -/
def mockUriMsg : String :=
  "`MongoMock` connection is only required for `unittest`.To enable this set `TESTING` to true`."

/-- message of the test-only-options `InvalidSettingsError`. -/
def testOnlyMsg : String :=
  "`TESTING` and/or `TEMP_DB` can be used only when `TESTING` is set to true."

/-- message of the undefined-default-alias `ConnectionError`. -/
def notDefinedDefaultMsg : String := "You have not defined a default connection"

/-- message of the undefined-named-alias `ConnectionError`. -/
def notDefinedNamedMsg (al : Val) : String :=
  "Connection with alias \"" ++ pyStr al ++ "\" has not been defined"

/-- message of the readiness-wait `mongoengine.ConnectionError`. -/
def cannotConnectTestMsg : String := "Cannot connect to the mongodb test instance"

/-- message of the missing-mongomock `RuntimeError`. -/
def mongomockMissingMsg : String := "You need mongomock installed to mock MongoEngine."

/-- message of the missing-mongod `RuntimeError`. -/
def mongodMissingMsg : String :=
  "You need `MongoDB` service installed on localhost to create a TEMP_DB instance."

/-- message of the wrapping `ConnectionError` of `get_connection`:
`"Cannot connect to database %s :\n%s" % (alias, e)`. -/
def wrapMsg (al : Val) (cause : String) : String :=
  "Cannot connect to database " ++ pyStr al ++ " :\n" ++ cause

/-- `_validate_settings(is_test, temp_db, preserved, conn_host)`.
Python evaluates the `elif` chain lazily: when `is_test` is `True`,
`not is_test and conn_host.startswith('mongomock://')` short-circuits without
touching `conn_host`, and `not is_test and temp_db or preserved` — which by
Python precedence is `(not is_test and temp_db) or preserved` — reduces to
`preserved`. -/
def _validate_settings (is_test temp_db preserved conn_host : PyVal) : Except Err Unit :=
  if is_test.isBool && temp_db.isBool && preserved.isBool then
    if is_test.asBool then
      if preserved.asBool then .error (.invalidSettingsError testOnlyMsg) else .ok ()
    else
      match conn_host with
      | .scalar (.str h) =>
        if pyStartsWith h "mongomock://" then .error (.invalidURI mockUriMsg)
        else if temp_db.asBool || preserved.asBool then
          .error (.invalidSettingsError testOnlyMsg)
        else .ok ()
      | _ => .error (.pyExc "AttributeError")
  else .error (.invalidSettingsError boolFlagsMsg)

/-- Truthiness of the `_tmpdir` module global. -/
def tmpdirTruthy : Option String → Bool
  | some s => decide (s ≠ "")
  | Option.none => false

/-- `disconnect(alias, preserved)`. The internal `get_connection(alias)` call
in the client branch has no registry effect (the alias has a client, so
`get_connection` only returns the external db handle); closing the client is
an effect on the external client object only. The stray-socket-file removal
is a filesystem detail folded into `tmpdirExists`. Note the source does not
reset `_tmpdir` after removing the directory. -/
def disconnect (st : Reg) (al : Val) (preserved : Bool) : Reg :=
  let st1 :=
    if (alookup st.clients al).isSome then
      { st with clients := aerase st.clients al }
    else st
  let st2 := if st1.process.isSome then { st1 with process := Option.none } else st1
  if !preserved && tmpdirTruthy st2.tmpdir then { st2 with tmpdirExists := false } else st2

/-- The argument `get_connection` passes to `disconnect` on a forced
reconnect: `_connection_settings.get('preserve_temp_db', False)`.
`_connection_settings` is keyed by alias, so this looks the string
`'preserve_temp_db'` up among the aliases; the result (a settings dict, or
the default `False`) is then used for its truthiness inside `disconnect`. -/
def preservedArg (st : Reg) : Bool :=
  match alookup st.settings (.str "preserve_temp_db") with
  | some d => !d.isEmpty
  | Option.none => false

/-- The readiness-wait loop of `_register_test_connection`:
`for i in range(fuel): sleep(0.1); try MongoClient(...) except ConnectionFailure: continue; else: break`.
Returns the total milliseconds slept and the client of the first successful
attempt (if any). The 100 ms sleep happens before every attempt. -/
def retryLoop (att : Nat → Option Nat) : Nat → Nat → Nat × Option Nat
  | _, 0 => (0, Option.none)
  | i, fuel + 1 =>
    match att i with
    | some c => (100, some c)
    | Option.none =>
      let r := retryLoop att (i + 1) fuel
      (100 + r.1, r.2)

set_option linter.unusedVariables false in
/-- `_register_test_connection(port, db_alias, preserved)`. The `preserved`
argument is only used by the source to register an `atexit` teardown hook
(process-exit behaviour, outside the registry semantics); the selected port
only parametrizes the spawned external process. The probe failure branch
raises `RuntimeError`; an empty (falsy) probe output makes the function fall
through and return `None`. -/
def _register_test_connection (ext : ExtWorld) (st : Reg) (port db_alias preserved : PyVal) :
    Reg × Except Err (Option Nat) :=
  match ext.mongodProbe with
  | .error _ => (st, .error (.runtimeError mongodMissingMsg))
  | .ok out =>
    if out ≠ "" then
      -- `_tmpdir = current_app.config.get('TEMP_DB_LOC', tempfile.mkdtemp())`
      let st1 := { st with tmpdir := some ext.tmpdirChoice, tmpdirExists := true }
      match db_alias with
      | .scalar k =>
        match alookup st1.clients k with
        | some c => (st1, .ok (some c))
        | Option.none =>
          let st2 := { st1 with process := some ext.spawnPid }
          match (retryLoop ext.attempt 0 3).2 with
          | some c => ({ st2 with clients := ainsert st2.clients k c }, .ok (some c))
          | Option.none => (st2, .error (.mongoengineConnectionError cannotConnectTestMsg))
      | _ => (st1, .error (.pyExc "TypeError"))
    else (st, .ok Option.none)

/-- The `for db_alias, connection_settings in connection_settings_iterator`
loop of `get_connection` ("check for shared connections"), modelled verbatim:
the stripped copy (`name`/`username`/`password` popped) is computed by the
source but never used afterwards; the `connection` variable is set only
immediately before `break`, so the `_connections[alias] = connection` branch
is reachable only with `connection` equal to its current value. The mock
constructor (`connection_class(**conn_settings)`) is called with the outer
`conn_settings`, not the loop copy. -/
def sharingLoop (ext : ExtWorld) (cs : PSettings) (al : Val) (hasCtor : Bool) :
    Option Nat → Nat → List (Val × Nat) → List (Val × PSettings) →
    List (Val × Nat) × Except Nat Unit
  | _, _, clients, [] => (clients, .ok ())
  | conn, cnt, clients, (db_alias, _s) :: rest =>
    if (alookup clients db_alias).isSome then
      -- `connection = _connections[db_alias]; break`
      (clients, .ok ())
    else
      match conn with
      | some c => sharingLoop ext cs al hasCtor (some c) cnt (ainsert clients al c) rest
      | Option.none =>
        if hasCtor then
          match ext.mockCtor cs cnt with
          | .ok c => sharingLoop ext cs al hasCtor Option.none (cnt + 1) (ainsert clients al c) rest
          | .error e => (clients, .error e)
        else sharingLoop ext cs al hasCtor Option.none cnt clients rest

/-- The `try: ... except Exception as e:` block of `get_connection` around the
sharing loop, followed by the final `return mongoengine.connection.get_db(alias)`.
An exception escaping the loop is re-raised as
`ConnectionError("Cannot connect to database %s :\n%s" % (alias, e))`;
registry mutations made before the raise persist. -/
def sharingAndFinish (ext : ExtWorld) (st : Reg) (al : Val) (cs : PSettings) (hasCtor : Bool) :
    Reg × Except Err (Option Nat) :=
  match sharingLoop ext cs al hasCtor Option.none 0 st.clients st.settings with
  | (cl, .ok _) => ({ st with clients := cl }, .ok (some (ext.getDb al)))
  | (cl, .error e) =>
    ({ st with clients := cl }, .error (.connectionError (wrapMsg al (ext.excStr e))))

/-- The body of `get_connection` after the optional forced disconnect: the
`if alias not in _connections:` establishment block followed by the final
`return mongoengine.connection.get_db(alias)`. Both `mongoengine.connect`
calls of the source sit before the `try` block, so their exceptions propagate
unwrapped (`extExc`). -/
def establishAndReturn (ext : ExtWorld) (st0 : Reg) (al : Val) :
    Reg × Except Err (Option Nat) :=
  if (alookup st0.clients al).isSome then
    (st0, .ok (some (ext.getDb al)))
  else
    match alookup st0.settings al with
    | Option.none =>
      (st0, .error (.connectionError
        (if al = .str DEFAULT_CONNECTION_NAME then notDefinedDefaultMsg
         else notDefinedNamedMsg al)))
    | some s =>
      match alookup s "host" with
      | Option.none => (st0, .error (.pyExc "KeyError"))
      | some host =>
        match alookup s "name" with
        | Option.none => (st0, .error (.pyExc "KeyError"))
        | some db_name =>
          let cs := aerase s "name"
          let is_test := ext.appConfig "TESTING"
          let temp_db := ext.appConfig "TEMP_DB"
          let preserved := ext.appConfig "PRESERVE_TEMP_DB"
          match _validate_settings is_test temp_db preserved host with
          | .error e => (st0, .error e)
          | .ok _ =>
            if is_test.asBool then
              if temp_db.asBool then
                match alookup cs "alias" with
                | Option.none => (st0, .error (.pyExc "KeyError"))
                | some db_alias =>
                  match alookup cs "port" with
                  | Option.none => (st0, .error (.pyExc "KeyError"))
                  | some port => _register_test_connection ext st0 port db_alias preserved
              else
                match host with
                | .scalar (.str h) =>
                  if pyStartsWith h "mongomock://" && ext.versionOld then
                    if ext.mongomockAvailable then
                      -- `conn_settings['host'] = conn_host.replace('mongomock://', 'mongodb://', 1)`
                      let cs1 := ainsert cs "host" (.scalar (.str ("mongodb://" ++ pyDrop h 12)))
                      sharingAndFinish ext st0 al cs1 true
                    else (st0, .error (.runtimeError mongomockMissingMsg))
                  else
                    match ext.connect db_name cs with
                    | .error e => (st0, .error (.extExc e))
                    | .ok c =>
                      sharingAndFinish ext
                        { st0 with clients := ainsert st0.clients al c } al cs false
                | _ => (st0, .error (.pyExc "AttributeError"))
            else
              match ext.connect db_name cs with
              | .error e => (st0, .error (.extExc e))
              | .ok c =>
                sharingAndFinish ext
                  { st0 with clients := ainsert st0.clients al c } al cs false

/-- `get_connection(alias, reconnect)`. `set_global_attributes()` only monkey
patches the external `mongoengine.connection` module and has no effect on the
modelled state. -/
def get_connection (ext : ExtWorld) (st : Reg) (al : Val) (reconnect : Bool) :
    Reg × Except Err (Option Nat) :=
  establishAndReturn ext (if reconnect then disconnect st al (preservedArg st) else st) al

/-- `fetch_connection_settings(config, remove_pass)`. -/
def fetch_connection_settings (config : PyVal) (remove_pass : Bool) : Except Err PyVal :=
  match config with
  | .dict cfg =>
    match alookup cfg "MONGODB_SETTINGS" with
    | some (.list xs) =>
      .ok (.list (xs.map (fun x => _resolve_settings x Option.none remove_pass)))
    | some v => .ok (_resolve_settings v Option.none remove_pass)
    | Option.none => .ok (_resolve_settings (.dict cfg) (some "MONGODB_") remove_pass)
  | _ => .error (.pyExc "TypeError")

/-- The per-item loop of `create_connection` for a list of resolved settings:
`alias = conn_setting['alias']; _connection_settings[alias] = conn_setting;
connections[alias] = get_connection(alias)`. A non-dict item or a missing /
unhashable alias raises; errors of `get_connection` propagate with the state
mutated so far. The returned `connections` dict is not part of the modelled
registry state. -/
def createLoop (ext : ExtWorld) : Reg → List PyVal → Reg × Except Err (Option Nat)
  | st, [] => (st, .ok Option.none)
  | st, x :: rest =>
    match x with
    | .dict d =>
      match alookup d "alias" with
      | some (.scalar k) =>
        let st1 := { st with settings := ainsert st.settings k d }
        match get_connection ext st1 k false with
        | (st2, .ok _) => createLoop ext st2 rest
        | (st2, .error e) => (st2, .error e)
      | some _ => (st, .error (.pyExc "TypeError"))
      | Option.none => (st, .error (.pyExc "KeyError"))
    | _ => (st, .error (.pyExc "TypeError"))

/-- `create_connection(config, app)`. The `app`/`_app_instance` bookkeeping
only selects where `__get_app_config` reads flags from, which the `ExtWorld`
oracle subsumes. -/
def create_connection (ext : ExtWorld) (config : PyVal) (st : Reg) :
    Reg × Except Err (Option Nat) :=
  match config with
  | .dict _ =>
    match fetch_connection_settings config false with
    | .error e => (st, .error e)
    | .ok (.list xs) => createLoop ext st xs
    | .ok (.dict d) =>
      match (alookup d "alias").getD (.scalar (.str DEFAULT_CONNECTION_NAME)) with
      | .scalar k =>
        let st1 := { st with settings := ainsert st.settings k d }
        get_connection ext st1 k false
      | _ => (st, .error (.pyExc "TypeError"))
    | .ok _ =>
      -- pass-through value: `conn_settings.get('alias', ...)` raises
      (st, .error (.pyExc "AttributeError"))
  | _ => (st, .error (.invalidSettingsError "Invalid application configuration"))

/-- Registry states reachable through the public operations. -/
inductive Reach : Reg → Prop where
  | init : Reach Reg.initial
  | getConn (ext : ExtWorld) (a : Val) (r : Bool) {st : Reg} :
      Reach st → Reach (get_connection ext st a r).1
  | createConn (ext : ExtWorld) (cfg : PyVal) {st : Reg} :
      Reach st → Reach (create_connection ext cfg st).1
  | disc (a : Val) (p : Bool) {st : Reg} :
      Reach st → Reach (disconnect st a p)

/-! ### Association-list (Python dict) lemmas -/

theorem alookup_ainsert_self {κ β : Type} [DecidableEq κ] (d : List (κ × β)) (k : κ) (v : β) :
    alookup (ainsert d k v) k = some v := by
  induction d with
  | nil => simp [ainsert, alookup]
  | cons hd tl ih =>
    obtain ⟨k', v'⟩ := hd
    by_cases h : k' = k <;> simp [ainsert, alookup, h, ih]

theorem alookup_ainsert_ne {κ β : Type} [DecidableEq κ] (d : List (κ × β)) {k k' : κ}
    (h : k' ≠ k) (v : β) : alookup (ainsert d k v) k' = alookup d k' := by
  induction d with
  | nil =>
    simp only [ainsert, alookup]
    rw [if_neg (fun hh => h hh.symm)]
  | cons hd tl ih =>
    obtain ⟨k₀, v₀⟩ := hd
    by_cases h₀ : k₀ = k
    · simp only [ainsert, if_pos h₀, alookup]
      rw [if_neg (fun hh => h hh.symm), if_neg (fun hh => h (hh.symm.trans h₀))]
    · simp only [ainsert, if_neg h₀, alookup]
      by_cases h₁ : k₀ = k'
      · rw [if_pos h₁, if_pos h₁]
      · rw [if_neg h₁, if_neg h₁, ih]

theorem ainsert_lookup_self {κ β : Type} [DecidableEq κ] {d : List (κ × β)} {k : κ} {v : β}
    (h : alookup d k = some v) : ainsert d k v = d := by
  induction d with
  | nil => simp [alookup] at h
  | cons hd tl ih =>
    obtain ⟨k₀, v₀⟩ := hd
    by_cases h₀ : k₀ = k
    · subst h₀
      simp [alookup] at h
      simp [ainsert, h]
    · simp [alookup, h₀] at h
      simp [ainsert, h₀, ih h]

theorem ainsert_of_lookup_none {κ β : Type} [DecidableEq κ] {d : List (κ × β)} {k : κ}
    (h : alookup d k = Option.none) (v : β) : ainsert d k v = d ++ [(k, v)] := by
  induction d with
  | nil => simp [ainsert]
  | cons hd tl ih =>
    obtain ⟨k₀, v₀⟩ := hd
    by_cases h₀ : k₀ = k
    · simp [alookup, h₀] at h
    · simp [alookup, h₀] at h
      simp [ainsert, h₀, ih h]

theorem alookup_append_left {κ β : Type} [DecidableEq κ] {d₁ : List (κ × β)} (d₂ : List (κ × β))
    {k : κ} {v : β} (h : alookup d₁ k = some v) : alookup (d₁ ++ d₂) k = some v := by
  induction d₁ with
  | nil => simp [alookup] at h
  | cons hd tl ih =>
    obtain ⟨k₀, v₀⟩ := hd
    by_cases h₀ : k₀ = k
    · simp [alookup, h₀] at h ⊢
      exact h
    · simp [alookup, h₀] at h ⊢
      exact ih h

theorem alookup_append_right {κ β : Type} [DecidableEq κ] {d₁ : List (κ × β)} (d₂ : List (κ × β))
    {k : κ} (h : alookup d₁ k = Option.none) : alookup (d₁ ++ d₂) k = alookup d₂ k := by
  induction d₁ with
  | nil => simp
  | cons hd tl ih =>
    obtain ⟨k₀, v₀⟩ := hd
    by_cases h₀ : k₀ = k
    · simp [alookup, h₀] at h
    · simp [alookup, h₀] at h ⊢
      exact ih h

theorem alookup_aerase_self {κ β : Type} [DecidableEq κ] (d : List (κ × β)) (k : κ) :
    alookup (aerase d k) k = Option.none := by
  induction d with
  | nil => simp [aerase, alookup]
  | cons hd tl ih =>
    obtain ⟨k₀, v₀⟩ := hd
    by_cases h₀ : k₀ = k <;> simp [aerase, alookup, h₀, ih]

theorem alookup_aerase_ne {κ β : Type} [DecidableEq κ] (d : List (κ × β)) {k k' : κ}
    (h : k' ≠ k) : alookup (aerase d k) k' = alookup d k' := by
  induction d with
  | nil => simp [aerase]
  | cons hd tl ih =>
    obtain ⟨k₀, v₀⟩ := hd
    by_cases h₀ : k₀ = k
    · simp only [aerase, if_pos h₀]
      rw [ih]
      simp only [alookup]
      rw [if_neg (fun hh => h (hh.symm.trans h₀))]
    · simp only [aerase, if_neg h₀, alookup]
      by_cases h₁ : k₀ = k'
      · rw [if_pos h₁, if_pos h₁]
      · rw [if_neg h₁, if_neg h₁, ih]

theorem aerase_of_lookup_none {κ β : Type} [DecidableEq κ] {d : List (κ × β)} {k : κ}
    (h : alookup d k = Option.none) : aerase d k = d := by
  induction d with
  | nil => simp [aerase]
  | cons hd tl ih =>
    obtain ⟨k₀, v₀⟩ := hd
    by_cases h₀ : k₀ = k
    · simp [alookup, h₀] at h
    · simp [alookup, h₀] at h
      simp [aerase, h₀, ih h]

theorem aerase_append {κ β : Type} [DecidableEq κ] (d₁ d₂ : List (κ × β)) (k : κ) :
    aerase (d₁ ++ d₂) k = aerase d₁ k ++ aerase d₂ k := by
  induction d₁ with
  | nil => simp [aerase]
  | cons hd tl ih =>
    obtain ⟨k₀, v₀⟩ := hd
    by_cases h₀ : k₀ = k <;> simp [aerase, h₀, ih]

theorem alookup_some_mem {κ β : Type} [DecidableEq κ] {d : List (κ × β)} {k : κ} {v : β}
    (h : alookup d k = some v) : (k, v) ∈ d := by
  induction d with
  | nil => simp [alookup] at h
  | cons hd tl ih =>
    obtain ⟨k₀, v₀⟩ := hd
    by_cases h₀ : k₀ = k
    · subst h₀
      simp [alookup] at h
      simp [h]
    · simp [alookup, h₀] at h
      simp [ih h]

theorem alookup_none_of_not_mem_keys {κ β : Type} [DecidableEq κ] {d : List (κ × β)} {k : κ}
    (h : k ∉ akeys d) : alookup d k = Option.none := by
  induction d with
  | nil => simp [alookup]
  | cons hd tl ih =>
    obtain ⟨k₀, v₀⟩ := hd
    rw [akeys, List.map_cons, List.mem_cons, not_or] at h
    simp only [alookup]
    rw [if_neg (fun hh => h.1 hh.symm)]
    exact ih h.2

theorem mem_keys_of_lookup_some {κ β : Type} [DecidableEq κ] {d : List (κ × β)} {k : κ} {v : β}
    (h : alookup d k = some v) : k ∈ akeys d := by
  rw [akeys, List.mem_map]
  exact ⟨(k, v), alookup_some_mem h, rfl⟩

theorem mem_ainsert {κ β : Type} [DecidableEq κ] {d : List (κ × β)} {k : κ} {v : β}
    {kv : κ × β} (h : kv ∈ ainsert d k v) : kv = (k, v) ∨ kv ∈ d := by
  induction d with
  | nil => simp [ainsert] at h; simp [h]
  | cons hd tl ih =>
    obtain ⟨k₀, v₀⟩ := hd
    by_cases h₀ : k₀ = k
    · simp [ainsert, h₀] at h
      rcases h with h | h
      · exact Or.inl h
      · exact Or.inr (List.mem_cons_of_mem _ h)
    · simp [ainsert, h₀] at h
      rcases h with h | h
      · exact Or.inr (by simp [h])
      · rcases ih h with h' | h'
        · exact Or.inl h'
        · exact Or.inr (List.mem_cons_of_mem _ h')

theorem mem_aerase {κ β : Type} [DecidableEq κ] {d : List (κ × β)} {k : κ} {kv : κ × β}
    (h : kv ∈ aerase d k) : kv ∈ d := by
  induction d with
  | nil => simp [aerase] at h
  | cons hd tl ih =>
    obtain ⟨k₀, v₀⟩ := hd
    by_cases h₀ : k₀ = k
    · simp [aerase, h₀] at h
      exact List.mem_cons_of_mem _ (ih h)
    · simp [aerase, h₀] at h
      rcases h with h | h
      · simp [h]
      · exact List.mem_cons_of_mem _ (ih h)

theorem akeys_ainsert_nodup {κ β : Type} [DecidableEq κ] {d : List (κ × β)} {k : κ} {v : β}
    (h : (akeys d).Nodup) : (akeys (ainsert d k v)).Nodup := by
  induction d with
  | nil => simp [ainsert, akeys]
  | cons hd tl ih =>
    obtain ⟨k₀, v₀⟩ := hd
    rw [akeys, List.map_cons, List.nodup_cons] at h
    by_cases h₀ : k₀ = k
    · simp only [ainsert, if_pos h₀]
      rw [akeys, List.map_cons, List.nodup_cons]
      exact ⟨h₀ ▸ h.1, h.2⟩
    · simp only [ainsert, if_neg h₀]
      rw [akeys, List.map_cons, List.nodup_cons]
      refine ⟨?_, ih h.2⟩
      intro hmem
      rw [List.mem_map] at hmem
      obtain ⟨ka, hin, hk⟩ := hmem
      rcases mem_ainsert hin with h' | h'
      · rw [h'] at hk
        exact h₀ hk.symm
      · exact h.1 (List.mem_map.mpr ⟨ka, h', hk⟩)

/-! ### Concrete scenarios used by the claims -/

/-- A registered descriptor: identical transport settings as `descB`,
different database name. -/
def descA : PSettings :=
  [("host", .scalar (.str "mongodb://localhost")), ("port", .scalar (.int 27017)),
   ("name", .scalar (.str "dbA")), ("username", .scalar .none)]

/-- A registered descriptor: identical transport settings as `descA`,
different database name. -/
def descB : PSettings :=
  [("host", .scalar (.str "mongodb://localhost")), ("port", .scalar (.int 27017)),
   ("name", .scalar (.str "dbB")), ("username", .scalar .none)]

/-- The stripping the sharing pass applies to each descriptor copy:
`pop('name'), pop('username'), pop('password')`. -/
def strippedSettings (s : PSettings) : PSettings :=
  aerase (aerase (aerase s "name") "username") "password"

/-- A benign external world: all flags read as `False`, connecting yields
client `20`, mongod is present, readiness attempts succeed with client `30`. -/
def extBase : ExtWorld where
  appConfig := fun _ => .scalar (.bool false)
  versionOld := false
  mongomockAvailable := true
  connect := fun _ _ => .ok 20
  mockCtor := fun _ n => .ok (100 + n)
  getDb := fun _ => 0
  excStr := fun e => toString e
  mongodProbe := .ok "db version v3.0"
  tmpdirChoice := "/tmp/flask-mongoengine-test"
  spawnPid := 7
  attempt := fun _ => some 30

-- state with one declared alias "a" (no client yet)
def stC1 : Reg := ⟨[(.str "a", descA)], [], Option.none, false, Option.none⟩

-- TESTING and PRESERVE_TEMP_DB set (as actual booleans), TEMP_DB unset
def extC1 : ExtWorld :=
  { extBase with
    appConfig := fun k =>
      if k = "TESTING" then .scalar (.bool true)
      else if k = "PRESERVE_TEMP_DB" then .scalar (.bool true)
      else .scalar (.bool false) }

-- two aliases declared with equivalent stripped descriptors, "a" connected
def stC2 : Reg :=
  ⟨[(.str "a", descA), (.str "b", descB)], [(.str "a", 10)], Option.none, false, Option.none⟩

-- alias "a" connected (client 5), an ephemeral instance tracked
def stC4 : Reg :=
  ⟨[(.str "a", descA)], [(.str "a", 5)], some "/tmp/t", true, some 9⟩

-- the external connect call raises exception 42
def extC6 : ExtWorld := { extBase with connect := fun _ _ => .error 42 }

-- same flags as `extC1`: TESTING and PRESERVE_TEMP_DB requested
def extC4 : ExtWorld := extC1

-- a mongomock descriptor for alias "m"
def descM : PSettings :=
  [("host", .scalar (.str "mongomock://x")), ("port", .scalar (.int 27017)),
   ("name", .scalar (.str "dbM")), ("username", .scalar .none)]

def stC3w : Reg := ⟨[(.str "m", descM)], [], Option.none, false, Option.none⟩

-- test mode, old mongoengine, mongomock importable but its constructor raises 5
def extC3w : ExtWorld :=
  { extBase with
    appConfig := fun k => if k = "TESTING" then .scalar (.bool true) else .scalar (.bool false)
    versionOld := true
    mockCtor := fun _ _ => .error 5 }

-- sanity checks of the connection manager on the scenarios
example :
    get_connection extC1 stC1 (.str "a") false =
      (stC1, .error (.invalidSettingsError testOnlyMsg)) := rfl

example :
    (get_connection extBase stC2 (.str "b") false).1.clients =
      [(.str "a", 10), (.str "b", 20)] := rfl

example : (get_connection extC6 stC1 (.str "a") false).2 = .error (.extExc 42) := rfl

example : (get_connection extC4 stC4 (.str "a") true).1.tmpdirExists = false := by
  rfl

/-! ### Claims C1, C2, C4: code bugs, evaluated at their failing inputs -/

/-- Claim C1 (code-bug evidence): with a descriptor registered for alias "a",
host "mongodb://localhost" (no mock prefix) and the three flags being actual
booleans TESTING=True, TEMP_DB=False, PRESERVE_TEMP_DB=True, `get_connection`
raises `InvalidSettingsError`, although the claim states that with isTest
true no combination of the other two flags does: the guard
`not is_test and temp_db or preserved` parses as
`(not is_test and temp_db) or preserved`, so `preserved` alone triggers the
error, contradicting the error message's own text. -/
theorem c1_policy_validation_bug :
    get_connection extC1 stC1 (.str "a") false =
      (stC1, .error (.invalidSettingsError testOnlyMsg))
    ∧ _validate_settings (.scalar (.bool true)) (.scalar (.bool false))
        (.scalar (.bool true)) (.scalar (.str "mongodb://localhost")) =
      .error (.invalidSettingsError testOnlyMsg) := ⟨rfl, rfl⟩

/-- Claim C2 (code-bug evidence): aliases "a" and "b" have descriptors that
are equal after stripping credentials and database name, and "a" already
holds an open client (id 10); connecting "b" still leaves "b" with its own
fresh client (id 20) — no sharing occurs, because the sharing pass never
compares the stripped copies it builds and breaks out of the loop before the
`_connections[alias] = connection` assignment can run. "a"'s entry is
unchanged. -/
theorem c2_sharing_pass_never_shares :
    strippedSettings descA = strippedSettings descB
    ∧ get_connection extBase stC2 (.str "b") false =
        ({ stC2 with clients := [(.str "a", 10), (.str "b", 20)] }, .ok (some 0))
    ∧ alookup (get_connection extBase stC2 (.str "b") false).1.clients (.str "a") = some 10
    ∧ alookup (get_connection extBase stC2 (.str "b") false).1.clients (.str "b") = some 20 :=
  ⟨rfl, rfl, rfl, rfl⟩

/-- Claim C4 (code-bug evidence): the application configures
PRESERVE_TEMP_DB=True, yet `get_connection(alias, reconnect=True)` passes
`_connection_settings.get('preserve_temp_db', False)` — a lookup of the
string 'preserve_temp_db' in the alias-keyed settings registry, which is
absent, hence `False` — to `disconnect`, so the tracked temporary directory
is destroyed and the ephemeral process slot cleared despite the preserve
request. -/
theorem c4_reconnect_ignores_preserve_flag :
    extC4.appConfig "PRESERVE_TEMP_DB" = .scalar (.bool true)
    ∧ preservedArg stC4 = false
    ∧ (get_connection extC4 stC4 (.str "a") true).1.tmpdirExists = false
    ∧ (get_connection extC4 stC4 (.str "a") true).1.process = Option.none :=
  ⟨rfl, rfl, rfl, rfl⟩

/-! ### Claim C3: undefined alias -/

/-- Claim C3 (counterexample): the undefined-alias failure is raised through
the module's single `ConnectionError` class — the same exception kind the
orchestration boundary uses to wrap connection failures (second conjunct) —
so it is not a dedicated error kind distinct from all others. -/
theorem c3_counterexample :
    (get_connection extBase Reg.initial (.str "nope") false).2 =
      .error (.connectionError (notDefinedNamedMsg (.str "nope")))
    ∧ (get_connection extC3w stC3w (.str "m") false).2 =
      .error (.connectionError (wrapMsg (.str "m") "5")) := ⟨rfl, rfl⟩

/-- Claim C3 (amended): for every alias with no registered descriptor (and no
cached client, which the registry invariant guarantees), `get_connection`
fails by raising `ConnectionError` — the code defines no separate
`ConnectionNotDefined` class — with message "You have not defined a default
connection" when the alias is the default constant and
`Connection with alias "<alias>" has not been defined` otherwise; the two
messages are distinct. -/
theorem c3_undefined_alias_raises_connection_error (ext : ExtWorld) (st : Reg) (al : Val)
    (hcl : alookup st.clients al = Option.none)
    (hse : alookup st.settings al = Option.none) :
    get_connection ext st al false =
      (st, .error (.connectionError
        (if al = .str DEFAULT_CONNECTION_NAME then notDefinedDefaultMsg
         else notDefinedNamedMsg al)))
    ∧ notDefinedNamedMsg al ≠ notDefinedDefaultMsg := by
  constructor
  · simp [get_connection, establishAndReturn, hcl, hse]
  · intro hEq
    have hlen := congrArg String.length hEq
    rw [notDefinedNamedMsg, notDefinedDefaultMsg] at hlen
    rw [String.length_append, String.length_append] at hlen
    have e1 : ("Connection with alias \"" : String).length = 23 := rfl
    have e2 : ("\" has not been defined" : String).length = 22 := rfl
    have e3 : ("You have not defined a default connection" : String).length = 41 := rfl
    rw [e1, e2, e3] at hlen
    omega

/-- Witness for `c3_undefined_alias_raises_connection_error` at the empty
registry and alias "nope". -/
theorem c3_undefined_alias_raises_connection_error_witness :
    get_connection extBase Reg.initial (.str "nope") false =
      (Reg.initial, .error (.connectionError
        (if (Val.str "nope") = .str DEFAULT_CONNECTION_NAME then notDefinedDefaultMsg
         else notDefinedNamedMsg (.str "nope"))))
    ∧ notDefinedNamedMsg (.str "nope") ≠ notDefinedDefaultMsg :=
  c3_undefined_alias_raises_connection_error extBase Reg.initial (.str "nope") rfl rfl

/-! ### Claim C6: wrapping of connection failures -/

/-- Claim C6 (counterexample): the external library's `connect` call raises
exception 42 while establishing alias "a"; `get_connection` surfaces it raw
(`extExc 42`), not wrapped in `ConnectionError` — the `mongoengine.connect`
calls sit before the `try` block. -/
theorem c6_counterexample :
    get_connection extC6 stC1 (.str "a") false = (stC1, .error (.extExc 42)) := rfl

/-- Claim C6 (amended): only failures raised inside the sharing pass
(including mock-client construction) are caught at the orchestration boundary
and re-raised as `ConnectionError` carrying the alias and the underlying
cause (first conjunct, about `sharingAndFinish`); a failure of the external
`connect` call itself propagates to the caller unwrapped (second conjunct). -/
theorem c6_only_sharing_pass_failures_wrapped :
    (∀ (ext : ExtWorld) (st : Reg) (al : Val) (cs : PSettings) (hasCtor : Bool)
       (cl : List (Val × Nat)) (e : Nat),
       sharingLoop ext cs al hasCtor Option.none 0 st.clients st.settings = (cl, .error e) →
       sharingAndFinish ext st al cs hasCtor =
         ({ st with clients := cl }, .error (.connectionError (wrapMsg al (ext.excStr e)))))
    ∧ (∀ (ext : ExtWorld) (st : Reg) (al : Val) (s : PSettings) (hs : String)
         (db_name : PyVal) (e : Nat),
       alookup st.clients al = Option.none →
       alookup st.settings al = some s →
       alookup s "host" = some (.scalar (.str hs)) →
       alookup s "name" = some db_name →
       ext.appConfig "TESTING" = .scalar (.bool false) →
       ext.appConfig "TEMP_DB" = .scalar (.bool false) →
       ext.appConfig "PRESERVE_TEMP_DB" = .scalar (.bool false) →
       pyStartsWith hs "mongomock://" = false →
       ext.connect db_name (aerase s "name") = .error e →
       get_connection ext st al false = (st, .error (.extExc e))) := by
  constructor
  · intro ext st al cs hasCtor cl e h
    simp [sharingAndFinish, h]
  · intro ext st al s hs db_name e h1 h2 h3 h4 h5 h6 h7 h8 h9
    simp [get_connection, establishAndReturn, h1, h2, h3, h4, h5, h6, h7, _validate_settings,
      PyVal.isBool, PyVal.asBool, h8, h9]

/-- Witness for `c6_only_sharing_pass_failures_wrapped`: the wrap half at the
mongomock scenario (constructor failure 5), the raw half at the failing
`connect` scenario (exception 42). -/
theorem c6_only_sharing_pass_failures_wrapped_witness :
    sharingAndFinish extC3w stC3w (.str "m")
        (ainsert (aerase descM "name") "host" (.scalar (.str "mongodb://x"))) true =
      ({ stC3w with clients := [] }, .error (.connectionError (wrapMsg (.str "m") "5")))
    ∧ get_connection extC6 stC1 (.str "a") false = (stC1, .error (.extExc 42)) := by
  constructor
  · exact c6_only_sharing_pass_failures_wrapped.1 extC3w stC3w (.str "m")
      (ainsert (aerase descM "name") "host" (.scalar (.str "mongodb://x"))) true [] 5 rfl
  · exact c6_only_sharing_pass_failures_wrapped.2 extC6 stC1 (.str "a") descA
      "mongodb://localhost" (.scalar (.str "dbA")) 42 rfl rfl rfl rfl rfl rfl rfl rfl rfl

/-! ### Extraction lemmas (prefix mode) -/

theorem extract_no_match {p : String} (hp : p ≠ "") :
    ∀ (d : PSettings) (acc : PSettings), (∀ kv ∈ d, pyStartsWith kv.1 p = false) →
      d.foldl (extractStep (some p)) acc = acc := by
  intro d
  induction d with
  | nil => intro acc _; rfl
  | cons hd tl ih =>
    intro acc h
    rw [List.foldl_cons]
    have hhd : pyStartsWith hd.1 p = false := h hd (List.mem_cons_self _ _)
    rw [extractStep, if_neg hp, hhd]
    simp only [Bool.false_eq_true, if_false]
    exact ih acc (fun kv hkv => h kv (List.mem_cons_of_mem _ hkv))

theorem extract_filter {p : String} (hp : p ≠ "") :
    ∀ (d : PSettings) (acc : PSettings),
      d.foldl (extractStep (some p)) acc =
        (d.filter (fun kv => pyStartsWith kv.1 p)).foldl (extractStep (some p)) acc := by
  intro d
  induction d with
  | nil => intro acc; rfl
  | cons hd tl ih =>
    intro acc
    rw [List.foldl_cons, List.filter_cons]
    by_cases hhd : pyStartsWith hd.1 p = true
    · rw [if_pos hhd, List.foldl_cons]
      exact ih _
    · rw [if_neg hhd]
      rw [extractStep, if_neg hp]
      rw [Bool.not_eq_true] at hhd
      rw [hhd]
      simp only [Bool.false_eq_true, if_false]
      exact ih acc

theorem mem_extract {p : String} (hp : p ≠ "") :
    ∀ (d : PSettings) (acc : PSettings) (kv : String × PyVal),
      kv ∈ d.foldl (extractStep (some p)) acc →
      kv ∈ acc ∨ ∃ k0 v0, (k0, v0) ∈ d ∧ pyStartsWith k0 p = true
        ∧ kv = (pyLower (pyDrop k0 (pyLen p)), v0) := by
  intro d
  induction d with
  | nil => intro acc kv h; exact Or.inl h
  | cons hd tl ih =>
    intro acc kv h
    rw [List.foldl_cons] at h
    by_cases hhd : pyStartsWith hd.1 p = true
    · rw [extractStep, if_neg hp, hhd, if_pos rfl] at h
      rcases ih _ kv h with h' | ⟨k0, v0, hm, hs, he⟩
      · rcases mem_ainsert h' with h'' | h''
        · exact Or.inr ⟨hd.1, hd.2, List.mem_cons_self _ _, hhd, h''⟩
        · exact Or.inl h''
      · exact Or.inr ⟨k0, v0, List.mem_cons_of_mem _ hm, hs, he⟩
    · rw [extractStep, if_neg hp, if_neg hhd] at h
      rcases ih _ kv h with h' | ⟨k0, v0, hm, hs, he⟩
      · exact Or.inl h'
      · exact Or.inr ⟨k0, v0, List.mem_cons_of_mem _ hm, hs, he⟩

/-! ### Claim C8: settings normalization with prefix -/

/-- The P3 input mapping. -/
def c8Input : PSettings :=
  [("MONGODB_HOST", .scalar (.str "h")), ("MONGODB_PORT", .scalar (.int 1234)),
   ("MONGODB_DB", .scalar (.str "x"))]

/-- The resolved descriptor of the P3 input. -/
def c8Result : PSettings :=
  [("host", .scalar (.str "h")), ("port", .scalar (.int 1234)),
   ("name", .scalar (.str "x")), ("alias", .scalar (.str DEFAULT_CONNECTION_NAME)),
   ("username", .scalar .none), ("read_preference", .scalar .readPrefPrimary)]

/-- Claim C8: resolving the P3 mapping with prefix "MONGODB_" yields exactly
the descriptor with host "h", port 1234, name "x", the default alias,
read_preference PRIMARY (username defaulted to None) and no "db" key; and in
general, with a non-empty prefix, only prefix-carrying keys are considered
(the extraction output over the whole mapping coincides with the extraction
output over its prefix-carrying entries), and every extracted entry comes
from a prefix-carrying key with the prefix stripped and the remainder
lower-cased. -/
theorem c8_settings_normalization :
    _resolve_settings (.dict c8Input) (some "MONGODB_") true = .dict c8Result
    ∧ alookup c8Result "db" = Option.none
    ∧ alookup c8Result "host" = some (.scalar (.str "h"))
    ∧ alookup c8Result "port" = some (.scalar (.int 1234))
    ∧ alookup c8Result "name" = some (.scalar (.str "x"))
    ∧ alookup c8Result "alias" = some (.scalar (.str DEFAULT_CONNECTION_NAME))
    ∧ alookup c8Result "read_preference" = some (.scalar .readPrefPrimary)
    ∧ (∀ (d : PSettings) (p : String), p ≠ "" →
        extractSettings d (some p) =
          extractSettings (d.filter (fun kv => pyStartsWith kv.1 p)) (some p))
    ∧ (∀ (d : PSettings) (p : String), p ≠ "" → ∀ kv ∈ extractSettings d (some p),
        ∃ k0 v0, (k0, v0) ∈ d ∧ pyStartsWith k0 p = true
          ∧ kv = (pyLower (pyDrop k0 (pyLen p)), v0)) := by
  refine ⟨rfl, rfl, rfl, rfl, rfl, rfl, rfl, ?_, ?_⟩
  · intro d p hp
    exact extract_filter hp d []
  · intro d p hp kv hkv
    rcases mem_extract hp d [] kv hkv with h | h
    · simp at h
    · exact h

/-- Witness for the universally quantified parts of `c8_settings_normalization`
at a concrete two-entry mapping. -/
theorem c8_settings_normalization_witness :
    extractSettings [("MONGODB_HOST", PyVal.scalar (.str "h")), ("OTHER", .scalar (.int 0))]
        (some "MONGODB_") =
      extractSettings
        (List.filter (fun kv => pyStartsWith kv.1 "MONGODB_")
          [("MONGODB_HOST", PyVal.scalar (.str "h")), ("OTHER", .scalar (.int 0))])
        (some "MONGODB_")
    ∧ ∃ k0 v0,
        (k0, v0) ∈ [("MONGODB_HOST", PyVal.scalar (.str "h")), ("OTHER", .scalar (.int 0))]
        ∧ pyStartsWith k0 "MONGODB_" = true
        ∧ (("host", PyVal.scalar (.str "h")) : String × PyVal) =
            (pyLower (pyDrop k0 (pyLen "MONGODB_")), v0) := by
  constructor
  · exact c8_settings_normalization.2.2.2.2.2.2.2.1
      [("MONGODB_HOST", PyVal.scalar (.str "h")), ("OTHER", .scalar (.int 0))] "MONGODB_"
      (by decide)
  · exact c8_settings_normalization.2.2.2.2.2.2.2.2
      [("MONGODB_HOST", PyVal.scalar (.str "h")), ("OTHER", .scalar (.int 0))] "MONGODB_"
      (by decide) ("host", PyVal.scalar (.str "h")) (List.mem_singleton.mpr rfl)

/-! ### Claim C9: zero matching keys -/

/-- The descriptor holding only the injected defaults. -/
def defaultsOnly : PSettings :=
  [("name", .scalar (.str "test")), ("alias", .scalar (.str DEFAULT_CONNECTION_NAME)),
   ("host", .scalar (.str "localhost")), ("port", .scalar (.int 27017)),
   ("username", .scalar .none), ("read_preference", .scalar .readPrefPrimary)]

/-- Claim C9 (counterexample): the empty mapping has zero keys carrying the
prefix, but resolving it returns it unchanged (the `not settings` guard), not
the defaults-only descriptor the claim demands. -/
theorem c9_counterexample :
    _resolve_settings (.dict []) (some "MONGODB_") true = .dict []
    ∧ (PyVal.dict [] ≠ .dict defaultsOnly) := by
  refine ⟨rfl, ?_⟩
  intro h
  rw [defaultsOnly] at h
  exact absurd h (by simp)

/-- Claim C9 (amended): for every NON-EMPTY mapping none of whose keys starts
with the (non-empty) prefix, resolution yields exactly the defaults-only
descriptor (name "test", default alias, host "localhost", port 27017,
username None, read_preference PRIMARY) — not an error. The empty mapping is
instead passed through unchanged. -/
theorem c9_defaults_when_no_key_matches (d : PSettings) (p : String) (rp : Bool)
    (hne : d ≠ []) (hp : p ≠ "")
    (hmatch : ∀ kv ∈ d, pyStartsWith kv.1 p = false) :
    _resolve_settings (.dict d) (some p) rp = .dict defaultsOnly := by
  have hext : extractSettings d (some p) = [] := extract_no_match hp d [] hmatch
  have hie : d.isEmpty = false := by
    cases d with
    | nil => exact absurd rfl hne
    | cons hd tl => rfl
  rw [_resolve_settings, hie]
  simp only [Bool.false_eq_true, if_false]
  rw [show resolveDict d (some p) rp =
    (if rp then aerase defaultsOnly "password" else defaultsOnly) from by
      unfold resolveDict
      rw [hext]
      rfl]
  cases rp <;> rfl

/-- Witness for `c9_defaults_when_no_key_matches` at a one-entry mapping. -/
theorem c9_defaults_when_no_key_matches_witness :
    _resolve_settings (.dict [("X", .scalar (.int 1))]) (some "MONGODB_") true =
      .dict defaultsOnly := by
  refine c9_defaults_when_no_key_matches [("X", .scalar (.int 1))] "MONGODB_" true
    (by simp) (by decide) ?_
  intro kv hkv
  rw [List.mem_singleton] at hkv
  rw [hkv]
  rfl

/-! ### Claim C7: readiness wait of the ephemeral instance -/

/-- Claim C7: on the spawn path (mongod probe succeeded with truthy output,
no client registered yet for the alias), the readiness wait makes at most 3
connection attempts, each preceded by a fixed 100 ms blocking sleep. If all
3 attempts fail with a connection failure, provisioning fails with the
`mongoengine.ConnectionError` "Cannot connect to the mongodb test instance"
after 300 ms of sleeping and registers no client; on the first successful
attempt `j` the client is registered under the alias and returned, after
`100 * (j + 1)` ms of sleeping. -/
theorem c7_readiness_wait (ext : ExtWorld) (st : Reg) (port pres : PyVal) (k : Val)
    (out : String) (hprobe : ext.mongodProbe = .ok out) (hout : out ≠ "")
    (hnc : alookup st.clients k = Option.none) :
    ((∀ i, i < 3 → ext.attempt i = Option.none) →
        _register_test_connection ext st port (.scalar k) pres =
          ({ st with tmpdir := some ext.tmpdirChoice, tmpdirExists := true,
                     process := some ext.spawnPid },
           .error (.mongoengineConnectionError cannotConnectTestMsg))
        ∧ (retryLoop ext.attempt 0 3).1 = 300)
    ∧ (∀ j c, j < 3 → (∀ i, i < j → ext.attempt i = Option.none) →
        ext.attempt j = some c →
        _register_test_connection ext st port (.scalar k) pres =
          ({ st with tmpdir := some ext.tmpdirChoice, tmpdirExists := true,
                     process := some ext.spawnPid,
                     clients := ainsert st.clients k c },
           .ok (some c))
        ∧ (retryLoop ext.attempt 0 3).1 = 100 * (j + 1)) := by
  constructor
  · intro h
    have a0 := h 0 (by omega)
    have a1 := h 1 (by omega)
    have a2 := h 2 (by omega)
    have hr : retryLoop ext.attempt 0 3 = (300, Option.none) := by
      simp [retryLoop, a0, a1, a2]
    refine ⟨?_, by rw [hr]⟩
    simp [_register_test_connection, hprobe, hout, hnc, hr]
  · intro j c hj hz hc
    interval_cases j
    · have hr : retryLoop ext.attempt 0 3 = (100, some c) := by
        simp [retryLoop, hc]
      refine ⟨?_, by rw [hr]⟩
      simp [_register_test_connection, hprobe, hout, hnc, hr]
    · have a0 := hz 0 (by omega)
      have hr : retryLoop ext.attempt 0 3 = (200, some c) := by
        simp [retryLoop, a0, hc]
      refine ⟨?_, by rw [hr]⟩
      simp [_register_test_connection, hprobe, hout, hnc, hr]
    · have a0 := hz 0 (by omega)
      have a1 := hz 1 (by omega)
      have hr : retryLoop ext.attempt 0 3 = (300, some c) := by
        simp [retryLoop, a0, a1, hc]
      refine ⟨?_, by rw [hr]⟩
      simp [_register_test_connection, hprobe, hout, hnc, hr]

/-- The external world of the C7 witness: readiness attempt 0 fails with a
connection failure, attempt 1 succeeds with client 30. -/
def extC7 : ExtWorld :=
  { extBase with attempt := fun i => if i = 1 then some 30 else Option.none }

/-- Witness for `c7_readiness_wait`: success on the second attempt, after
200 ms of sleeping. -/
theorem c7_readiness_wait_witness :
    _register_test_connection extC7 Reg.initial (.scalar (.int 27017)) (.scalar (.str "t"))
        (.scalar (.bool false)) =
      ({ Reg.initial with tmpdir := some extC7.tmpdirChoice, tmpdirExists := true,
                          process := some extC7.spawnPid,
                          clients := ainsert Reg.initial.clients (.str "t") 30 },
       .ok (some 30))
    ∧ (retryLoop extC7.attempt 0 3).1 = 200 := by
  have h := (c7_readiness_wait extC7 Reg.initial (.scalar (.int 27017))
      (.scalar (.bool false)) (.str "t") "db version v3.0" rfl (by decide) rfl).2
      1 30 (by omega) (by intro i hi; interval_cases i; rfl) rfl
  exact ⟨h.1, by rw [h.2]⟩

/-! ### Claim C10 (counterexample): re-resolution resets `name` -/

/-- The dict payload of a `PyVal.dict` (model helper). -/
def asDict : PyVal → PSettings
  | .dict d => d
  | _ => []

/-- Claim C10 (counterexample): resolving `\x7b'db': 'x'\x7d` without a prefix
yields a descriptor with name "x", but resolving that result again resets
name to "test" (the code sets name to "test" whenever "db" is absent instead
of keeping an existing name), so resolution is not idempotent. -/
theorem c10_counterexample :
    alookup (asDict (_resolve_settings (.dict [("db", .scalar (.str "x"))]) Option.none true))
        "name" = some (.scalar (.str "x"))
    ∧ alookup (asDict (_resolve_settings
        (_resolve_settings (.dict [("db", .scalar (.str "x"))]) Option.none true)
        Option.none true)) "name" = some (.scalar (.str "test"))
    ∧ _resolve_settings (_resolve_settings (.dict [("db", .scalar (.str "x"))]) Option.none true)
        Option.none true
      ≠ _resolve_settings (.dict [("db", .scalar (.str "x"))]) Option.none true := by
  refine ⟨rfl, rfl, ?_⟩
  intro h
  have h2 := congrArg (fun z => alookup (asDict z) "name") h
  have h3 : (some (PyVal.scalar (.str "test")) : Option PyVal) =
      some (.scalar (.str "x")) := h2
  injection h3 with h4
  injection h4 with h5
  injection h5 with h6
  exact absurd h6 (by decide)

/-! ### Claim C5: clients ⊆ settings invariant -/

theorem alookup_ainsert_isSome_cases {κ β : Type} [DecidableEq κ]
    {d : List (κ × β)} {k : κ} {v : β} {a : κ}
    (h : (alookup (ainsert d k v) a).isSome) : a = k ∨ (alookup d a).isSome := by
  by_cases ha : a = k
  · exact Or.inl ha
  · rw [alookup_ainsert_ne d ha v] at h
    exact Or.inr h

theorem alookup_ainsert_isSome_mono {κ β : Type} [DecidableEq κ]
    {d : List (κ × β)} (k : κ) (v : β) {a : κ}
    (h : (alookup d a).isSome) : (alookup (ainsert d k v) a).isSome := by
  by_cases ha : a = k
  · rw [ha, alookup_ainsert_self]
    rfl
  · rw [alookup_ainsert_ne d ha v]
    exact h

theorem alookup_aerase_isSome {κ β : Type} [DecidableEq κ]
    {d : List (κ × β)} {k a : κ}
    (h : (alookup (aerase d k) a).isSome) : (alookup d a).isSome := by
  by_cases ha : a = k
  · rw [ha, alookup_aerase_self] at h
    simp at h
  · rw [alookup_aerase_ne d ha] at h
    exact h

theorem disconnect_settings (st : Reg) (al : Val) (p : Bool) :
    (disconnect st al p).settings = st.settings := by
  simp only [disconnect]
  repeat' split
  all_goals rfl

theorem disconnect_clients_sub (st : Reg) (al : Val) (p : Bool) (a : Val)
    (h : (alookup (disconnect st al p).clients a).isSome) :
    (alookup st.clients a).isSome := by
  simp only [disconnect] at h
  repeat' split at h
  all_goals first
    | exact h
    | exact alookup_aerase_isSome h

theorem register_settings (ext : ExtWorld) (st : Reg) (port da pres : PyVal) :
    (_register_test_connection ext st port da pres).1.settings = st.settings := by
  simp only [_register_test_connection]
  repeat' split
  all_goals rfl

theorem register_clients_sub (ext : ExtWorld) (st : Reg) (port da pres : PyVal) (a : Val)
    (h : (alookup (_register_test_connection ext st port da pres).1.clients a).isSome) :
    (alookup st.clients a).isSome ∨ da = .scalar a := by
  simp only [_register_test_connection] at h
  repeat' split at h
  all_goals first
    | exact Or.inl h
    | (rcases alookup_ainsert_isSome_cases h with h1 | h1
       · exact Or.inr (by rw [h1])
       · exact Or.inl h1)

theorem sharingLoop_clients_sub (ext : ExtWorld) (cs : PSettings) (al : Val) (hasCtor : Bool) :
    ∀ (items : List (Val × PSettings)) (conn : Option Nat) (cnt : Nat)
      (clients : List (Val × Nat)) (a : Val),
      (alookup (sharingLoop ext cs al hasCtor conn cnt clients items).1 a).isSome →
      (alookup clients a).isSome ∨ a = al := by
  intro items
  induction items with
  | nil =>
    intro conn cnt clients a h
    exact Or.inl h
  | cons hd tl ih =>
    intro conn cnt clients a h
    obtain ⟨da, s⟩ := hd
    simp only [sharingLoop] at h
    split at h
    · exact Or.inl h
    · split at h
      next c =>
        rcases ih (some c) cnt _ a h with h' | h'
        · rcases alookup_ainsert_isSome_cases h' with h'' | h''
          · exact Or.inr h''
          · exact Or.inl h''
        · exact Or.inr h'
      next =>
        split at h
        · split at h
          next c _ =>
            rcases ih Option.none (cnt + 1) _ a h with h' | h'
            · rcases alookup_ainsert_isSome_cases h' with h'' | h''
              · exact Or.inr h''
              · exact Or.inl h''
            · exact Or.inr h'
          next => exact Or.inl h
        · rcases ih Option.none cnt clients a h with h' | h'
          · exact Or.inl h'
          · exact Or.inr h'

theorem sharingAndFinish_settings (ext : ExtWorld) (st : Reg) (al : Val) (cs : PSettings)
    (b : Bool) : (sharingAndFinish ext st al cs b).1.settings = st.settings := by
  unfold sharingAndFinish
  repeat' split
  all_goals rfl

theorem sharingAndFinish_clients_sub (ext : ExtWorld) (st : Reg) (al : Val) (cs : PSettings)
    (b : Bool) (a : Val)
    (h : (alookup (sharingAndFinish ext st al cs b).1.clients a).isSome) :
    (alookup st.clients a).isSome ∨ a = al := by
  unfold sharingAndFinish at h
  split at h
  next cl res heq =>
    have hcl : (alookup cl a).isSome := h
    have := sharingLoop_clients_sub ext cs al b st.settings Option.none 0 st.clients a
    rw [heq] at this
    exact this hcl
  next cl e heq =>
    have hcl : (alookup cl a).isSome := h
    have := sharingLoop_clients_sub ext cs al b st.settings Option.none 0 st.clients a
    rw [heq] at this
    exact this hcl

/-- Every alias holding a client also has a registered descriptor. -/
def clientsDeclared (st : Reg) : Prop :=
  ∀ a : Val, (alookup st.clients a).isSome → (alookup st.settings a).isSome

/-- Auxiliary invariant: every stored descriptor's own `alias` field equals
its registry key (the writers of `_connection_settings` key each descriptor
by its `alias` value). -/
def aliasFieldConsistent (st : Reg) : Prop :=
  ∀ (a : Val) (s : PSettings), alookup st.settings a = some s →
    ∀ v, alookup s "alias" = some v → v = .scalar a

/-- The combined registry invariant. -/
def RegInv (st : Reg) : Prop := clientsDeclared st ∧ aliasFieldConsistent st

theorem clientsDeclared_of_eq {st st' : Reg} (hs : st'.settings = st.settings)
    (hsub : ∀ a, (alookup st'.clients a).isSome → (alookup st.clients a).isSome)
    (h : clientsDeclared st) : clientsDeclared st' := by
  intro a ha
  rw [hs]
  exact h a (hsub a ha)

theorem afc_of_settings_eq {st st' : Reg} (hs : st'.settings = st.settings)
    (h : aliasFieldConsistent st) : aliasFieldConsistent st' := by
  intro a s hsa v hv
  rw [hs] at hsa
  exact h a s hsa v hv

theorem regInv_disconnect {st : Reg} (h : RegInv st) (al : Val) (p : Bool) :
    RegInv (disconnect st al p) :=
  ⟨clientsDeclared_of_eq (disconnect_settings st al p)
      (disconnect_clients_sub st al p) h.1,
   afc_of_settings_eq (disconnect_settings st al p) h.2⟩

theorem regInv_add_client {st0 : Reg} (h : RegInv st0) {al : Val} (c : Nat)
    (hal : (alookup st0.settings al).isSome) :
    RegInv { st0 with clients := ainsert st0.clients al c } := by
  constructor
  · intro a ha
    rcases alookup_ainsert_isSome_cases ha with h' | h'
    · rw [h']
      exact hal
    · exact h.1 a h'
  · exact h.2

theorem regInv_sharingAndFinish (ext : ExtWorld) {stX : Reg} (h : RegInv stX) (al : Val)
    (cs : PSettings) (b : Bool) (hal : (alookup stX.settings al).isSome) :
    RegInv (sharingAndFinish ext stX al cs b).1 := by
  constructor
  · intro a ha
    rw [sharingAndFinish_settings]
    rcases sharingAndFinish_clients_sub ext stX al cs b a ha with h' | h'
    · exact h.1 a h'
    · rw [h']
      exact hal
  · exact afc_of_settings_eq (sharingAndFinish_settings ext stX al cs b) h.2

theorem regInv_register (ext : ExtWorld) {st0 : Reg} (h : RegInv st0)
    (port : PyVal) {da : PyVal} (pres : PyVal) {al : Val}
    (hda : da = .scalar al) (hal : (alookup st0.settings al).isSome) :
    RegInv (_register_test_connection ext st0 port da pres).1 := by
  constructor
  · intro a ha
    rw [register_settings]
    rcases register_clients_sub ext st0 port da pres a ha with h' | h'
    · exact h.1 a h'
    · rw [hda] at h'
      injection h' with h''
      rw [← h'']
      exact hal
  · exact afc_of_settings_eq (register_settings ext st0 port da pres) h.2

theorem regInv_establishAndReturn (ext : ExtWorld) {st0 : Reg} (h0 : RegInv st0) (al : Val) :
    RegInv (establishAndReturn ext st0 al).1 := by
  simp only [establishAndReturn]
  split
  · exact h0
  split
  · exact h0
  next s hs =>
  have halS : (alookup st0.settings al).isSome := by rw [hs]; rfl
  split
  · exact h0
  next host hhost =>
  split
  · exact h0
  next db_name hname =>
  split
  · exact h0
  split
  · -- test mode
    split
    · -- TEMP_DB: ephemeral provisioning
      split
      · exact h0
      next da hda =>
      split
      · exact h0
      next port hport =>
      have hda' : alookup s "alias" = some da := by
        rw [← alookup_aerase_ne s (show ("alias" : String) ≠ "name" by decide)]
        exact hda
      exact regInv_register ext h0 port _ (h0.2 al s hs da hda') halS
    · -- mock / standard dispatch on the host value
      split
      · split
        · -- mongomock rewrite
          split
          · exact regInv_sharingAndFinish ext h0 al _ true halS
          · exact h0
        · -- standard connect in test mode
          split
          · exact h0
          next c hc =>
          exact regInv_sharingAndFinish ext (regInv_add_client h0 c halS) al _ false halS
      · exact h0
  · -- standard connect
    split
    · exact h0
    next c hc =>
    exact regInv_sharingAndFinish ext (regInv_add_client h0 c halS) al _ false halS

theorem regInv_get_connection (ext : ExtWorld) {st : Reg} (h : RegInv st) (al : Val)
    (r : Bool) : RegInv (get_connection ext st al r).1 := by
  rw [get_connection]
  refine regInv_establishAndReturn ext ?_ al
  split
  · exact regInv_disconnect h al (preservedArg st)
  · exact h

theorem regInv_settings_insert {st : Reg} (h : RegInv st) {k : Val} {d : PSettings}
    (hd : ∀ v, alookup d "alias" = some v → v = .scalar k) :
    RegInv { st with settings := ainsert st.settings k d } := by
  constructor
  · intro a ha
    exact alookup_ainsert_isSome_mono _ _ (h.1 a ha)
  · intro a s hsa v hv
    by_cases hak : a = k
    · subst hak
      rw [alookup_ainsert_self] at hsa
      injection hsa with hds
      rw [← hds] at hv
      exact hd v hv
    · rw [alookup_ainsert_ne _ hak _] at hsa
      exact h.2 a s hsa v hv

theorem regInv_createLoop (ext : ExtWorld) :
    ∀ (xs : List PyVal) (st : Reg), RegInv st → RegInv (createLoop ext st xs).1 := by
  intro xs
  induction xs with
  | nil => intro st h; exact h
  | cons x tl ih =>
    intro st h
    simp only [createLoop]
    split
    next d =>
      split
      next k heqa =>
        have h1 : RegInv { st with settings := ainsert st.settings k d } := by
          refine regInv_settings_insert h ?_
          intro v hv
          rw [heqa] at hv
          injection hv with hv'
          rw [← hv']
        split
        next st2 r heq2 =>
          have h2 : RegInv st2 := by
            have := regInv_get_connection ext h1 k false
            rw [heq2] at this
            exact this
          exact ih st2 h2
        next st2 e heq2 =>
          have h2 : RegInv st2 := by
            have := regInv_get_connection ext h1 k false
            rw [heq2] at this
            exact this
          exact h2
      next => exact h
      next => exact h
    next => exact h

theorem regInv_create_connection (ext : ExtWorld) (cfg : PyVal) {st : Reg} (h : RegInv st) :
    RegInv (create_connection ext cfg st).1 := by
  simp only [create_connection]
  split
  next cfgd =>
    split
    · exact h
    · exact regInv_createLoop ext _ st h
    next d hfe =>
      split
      next k heq =>
        have h1 : RegInv { st with settings := ainsert st.settings k d } := by
          refine regInv_settings_insert h ?_
          intro v hv
          rw [hv] at heq
          simp only [Option.getD_some] at heq
          rw [heq]
        exact regInv_get_connection ext h1 k false
      next => exact h
    · exact h
  next => exact h

/-- All states reachable through the public operations satisfy the combined
registry invariant. -/
theorem regInv_reach {st : Reg} (h : Reach st) : RegInv st := by
  induction h with
  | init =>
    constructor
    · intro a ha
      simp [Reg.initial, alookup] at ha
    · intro a s hs
      simp [Reg.initial, alookup] at hs
  | getConn ext a r _ ih => exact regInv_get_connection ext ih a r
  | createConn ext cfg _ ih => exact regInv_create_connection ext cfg ih
  | disc a p _ ih => exact regInv_disconnect ih a p

/-- Claim C5: in every registry state reachable through the public operations
(create, get — including ephemeral provisioning — and disconnect), every
alias holding an entry in the clients mapping also has an entry in the
settings mapping. -/
theorem c5_clients_subset_settings (st : Reg) (h : Reach st) : clientsDeclared st :=
  (regInv_reach h).1

/-- Witness for `c5_clients_subset_settings`: a state reached by creating a
connection from a prefixed flat configuration. -/
theorem c5_clients_subset_settings_witness :
    clientsDeclared
      (create_connection extBase (.dict [("MONGODB_HOST", .scalar (.str "h"))]) Reg.initial).1 :=
  c5_clients_subset_settings
    (create_connection extBase (.dict [("MONGODB_HOST", .scalar (.str "h"))]) Reg.initial).1
    (Reach.createConn extBase (.dict [("MONGODB_HOST", .scalar (.str "h"))]) Reach.init)

/-! ### Claim C10 (amended): idempotence of prefix-less resolution -/

theorem pyLowerChar_eq_self (c : Char) (h1 : c ≠ 'A') (h2 : c ≠ 'B') (h3 : c ≠ 'C') (h4 : c ≠ 'D') (h5 : c ≠ 'E') (h6 : c ≠ 'F') (h7 : c ≠ 'G') (h8 : c ≠ 'H') (h9 : c ≠ 'I') (h10 : c ≠ 'J') (h11 : c ≠ 'K') (h12 : c ≠ 'L') (h13 : c ≠ 'M') (h14 : c ≠ 'N') (h15 : c ≠ 'O') (h16 : c ≠ 'P') (h17 : c ≠ 'Q') (h18 : c ≠ 'R') (h19 : c ≠ 'S') (h20 : c ≠ 'T') (h21 : c ≠ 'U') (h22 : c ≠ 'V') (h23 : c ≠ 'W') (h24 : c ≠ 'X') (h25 : c ≠ 'Y') (h26 : c ≠ 'Z') :
    pyLowerChar c = c := by
  unfold pyLowerChar
  rw [if_neg h1, if_neg h2, if_neg h3, if_neg h4, if_neg h5, if_neg h6, if_neg h7, if_neg h8, if_neg h9, if_neg h10, if_neg h11, if_neg h12, if_neg h13, if_neg h14, if_neg h15, if_neg h16, if_neg h17, if_neg h18, if_neg h19, if_neg h20, if_neg h21, if_neg h22, if_neg h23, if_neg h24, if_neg h25, if_neg h26]

theorem pyLowerChar_idem (c : Char) : pyLowerChar (pyLowerChar c) = pyLowerChar c := by
  by_cases h1 : c = 'A'
  · rw [h1]; decide
  by_cases h2 : c = 'B'
  · rw [h2]; decide
  by_cases h3 : c = 'C'
  · rw [h3]; decide
  by_cases h4 : c = 'D'
  · rw [h4]; decide
  by_cases h5 : c = 'E'
  · rw [h5]; decide
  by_cases h6 : c = 'F'
  · rw [h6]; decide
  by_cases h7 : c = 'G'
  · rw [h7]; decide
  by_cases h8 : c = 'H'
  · rw [h8]; decide
  by_cases h9 : c = 'I'
  · rw [h9]; decide
  by_cases h10 : c = 'J'
  · rw [h10]; decide
  by_cases h11 : c = 'K'
  · rw [h11]; decide
  by_cases h12 : c = 'L'
  · rw [h12]; decide
  by_cases h13 : c = 'M'
  · rw [h13]; decide
  by_cases h14 : c = 'N'
  · rw [h14]; decide
  by_cases h15 : c = 'O'
  · rw [h15]; decide
  by_cases h16 : c = 'P'
  · rw [h16]; decide
  by_cases h17 : c = 'Q'
  · rw [h17]; decide
  by_cases h18 : c = 'R'
  · rw [h18]; decide
  by_cases h19 : c = 'S'
  · rw [h19]; decide
  by_cases h20 : c = 'T'
  · rw [h20]; decide
  by_cases h21 : c = 'U'
  · rw [h21]; decide
  by_cases h22 : c = 'V'
  · rw [h22]; decide
  by_cases h23 : c = 'W'
  · rw [h23]; decide
  by_cases h24 : c = 'X'
  · rw [h24]; decide
  by_cases h25 : c = 'Y'
  · rw [h25]; decide
  by_cases h26 : c = 'Z'
  · rw [h26]; decide
  rw [pyLowerChar_eq_self c h1 h2 h3 h4 h5 h6 h7 h8 h9 h10 h11 h12 h13 h14 h15 h16 h17 h18 h19 h20 h21 h22 h23 h24 h25 h26]
  exact pyLowerChar_eq_self c h1 h2 h3 h4 h5 h6 h7 h8 h9 h10 h11 h12 h13 h14 h15 h16 h17 h18 h19 h20 h21 h22 h23 h24 h25 h26

theorem pyLower_idem (s : String) : pyLower (pyLower s) = pyLower s := by
  unfold pyLower
  apply congrArg String.mk
  show List.map pyLowerChar (List.map pyLowerChar s.data) = List.map pyLowerChar s.data
  rw [List.map_map]
  exact List.map_congr_left (fun c _ => pyLowerChar_idem c)

/-- No key needs any prefix handling here: the fold of the no-prefix
extraction step over entries whose lower-cased keys are fresh for the
accumulator appends the lower-cased entries in order. -/
theorem extract_append_fresh :
    ∀ (d acc : PSettings),
      (∀ kv ∈ d, alookup acc (pyLower kv.1) = Option.none) →
      (d.map (fun kv => pyLower kv.1)).Nodup →
      d.foldl (extractStep Option.none) acc = acc ++ d.map (fun kv => (pyLower kv.1, kv.2)) := by
  intro d
  induction d with
  | nil => intro acc _ _; simp
  | cons hd tl ih =>
    intro acc hfresh hnd
    rw [List.foldl_cons]
    rw [List.map_cons, List.nodup_cons] at hnd
    have hstep : extractStep Option.none acc hd = acc ++ [(pyLower hd.1, hd.2)] :=
      ainsert_of_lookup_none (hfresh hd (List.mem_cons_self _ _)) hd.2
    rw [hstep]
    rw [ih (acc ++ [(pyLower hd.1, hd.2)]) ?_ hnd.2]
    · simp
    · intro kv hkv
      rw [alookup_append_right]
      · have hne : pyLower kv.1 ≠ pyLower hd.1 := by
          intro hcontra
          exact hnd.1 (by rw [← hcontra]; exact List.mem_map_of_mem _ hkv)
        simp only [alookup]
        rw [if_neg (fun hh => hne hh.symm)]
      · exact hfresh kv (List.mem_cons_of_mem _ hkv)

theorem mem_extract_none :
    ∀ (d acc : PSettings) (kv : String × PyVal),
      kv ∈ d.foldl (extractStep Option.none) acc →
      kv ∈ acc ∨ ∃ kv0, kv0 ∈ d ∧ kv = (pyLower kv0.1, kv0.2) := by
  intro d
  induction d with
  | nil => intro acc kv h; exact Or.inl h
  | cons hd tl ih =>
    intro acc kv h
    rw [List.foldl_cons] at h
    rcases ih _ kv h with h' | ⟨kv0, hm, he⟩
    · rcases mem_ainsert h' with h'' | h''
      · exact Or.inr ⟨hd, List.mem_cons_self _ _, h''⟩
      · exact Or.inl h''
    · exact Or.inr ⟨kv0, List.mem_cons_of_mem _ hm, he⟩

theorem extract_nodup (pfx : Option String) :
    ∀ (d acc : PSettings), (akeys acc).Nodup →
      (akeys (d.foldl (extractStep pfx) acc)).Nodup := by
  intro d
  induction d with
  | nil => intro acc h; exact h
  | cons hd tl ih =>
    intro acc h
    rw [List.foldl_cons]
    refine ih _ ?_
    rcases pfx with _ | p
    · simp only [extractStep]
      exact akeys_ainsert_nodup h
    · simp only [extractStep]
      split
      · exact akeys_ainsert_nodup h
      · split
        · exact akeys_ainsert_nodup h
        · exact h

theorem lookup_none_of_lfix {r : PSettings}
    (hfix : ∀ kv ∈ r, pyLower kv.1 = kv.1) {k : String} (hk : pyLower k ≠ k) :
    alookup r k = Option.none := by
  cases hl : alookup r k with
  | none => rfl
  | some w => exact absurd (hfix (k, w) (alookup_some_mem hl)) hk

theorem akeys_aerase_sublist {κ β : Type} [DecidableEq κ] (d : List (κ × β)) (k : κ) :
    (akeys (aerase d k)).Sublist (akeys d) := by
  induction d with
  | nil => simp [aerase, akeys]
  | cons hd tl ih =>
    obtain ⟨k₀, v₀⟩ := hd
    by_cases h₀ : k₀ = k
    · simp only [aerase, if_pos h₀]
      exact ih.trans (by simp [akeys])
    · simp only [aerase, if_neg h₀, akeys, List.map_cons]
      exact List.Sublist.cons₂ _ ih

theorem akeys_aerase_nodup {κ β : Type} [DecidableEq κ] {d : List (κ × β)} (k : κ)
    (h : (akeys d).Nodup) : (akeys (aerase d k)).Nodup :=
  h.sublist (akeys_aerase_sublist d k)

theorem ne_nil_of_lookup_some {κ β : Type} [DecidableEq κ] {d : List (κ × β)} {k : κ} {v : β}
    (h : alookup d k = some v) : d ≠ [] := by
  intro hd
  rw [hd] at h
  simp [alookup] at h

theorem defaultStep_lookup_ne {r : PSettings} {k k' : String} (h : k' ≠ k) (v : PyVal) :
    alookup (defaultStep k v r) k' = alookup r k' :=
  alookup_ainsert_ne r h _

theorem defaultStep_lookup_self (r : PSettings) (k : String) (v : PyVal) :
    (alookup (defaultStep k v r) k).isSome := by
  rw [defaultStep, alookup_ainsert_self]
  rfl

theorem defaultStep_nodup {r : PSettings} (k : String) (v : PyVal)
    (h : (akeys r).Nodup) : (akeys (defaultStep k v r)).Nodup :=
  akeys_ainsert_nodup h

theorem defaultStep_lfix {r : PSettings} {k : String} (v : PyVal) (hk : pyLower k = k)
    (h : ∀ kv ∈ r, pyLower kv.1 = kv.1) : ∀ kv ∈ defaultStep k v r, pyLower kv.1 = kv.1 := by
  intro kv hkv
  rcases mem_ainsert hkv with h' | h'
  · rw [h']
    exact hk
  · exact h kv h'

/-- The facts about a resolver output (with `replicaSet` split off, if any)
needed to show that it is a fixed point of a second prefix-less resolution. -/
structure GoodBase (r0 : PSettings) (rp : Bool) : Prop where
  nodup : (akeys r0).Nodup
  lfix : ∀ kv ∈ r0, pyLower kv.1 = kv.1
  no_db : alookup r0 "db" = Option.none
  no_rs : alookup r0 "replicaset" = Option.none
  name_test : alookup r0 "name" = some (.scalar (.str "test"))
  has_alias : (alookup r0 "alias").isSome
  has_host : (alookup r0 "host").isSome
  has_port : (alookup r0 "port").isSome
  has_user : (alookup r0 "username").isSome
  has_rpref : (alookup r0 "read_preference").isSome
  no_pass : rp = true → alookup r0 "password" = Option.none

theorem goodBase_passwordStep {R : PSettings} (rp : Bool)
    (hnd : (akeys R).Nodup)
    (hfix : ∀ kv ∈ R, pyLower kv.1 = kv.1)
    (hdb : alookup R "db" = Option.none)
    (hrs : alookup R "replicaset" = Option.none)
    (hname : alookup R "name" = some (.scalar (.str "test")))
    (ha : (alookup R "alias").isSome)
    (hh : (alookup R "host").isSome)
    (hp : (alookup R "port").isSome)
    (hu : (alookup R "username").isSome)
    (hr : (alookup R "read_preference").isSome) :
    GoodBase (passwordStep rp R) rp := by
  cases rp with
  | false =>
    rw [passwordStep]
    simp only [Bool.false_eq_true, if_false]
    exact ⟨hnd, hfix, hdb, hrs, hname, ha, hh, hp, hu, hr, fun h => absurd h (by decide)⟩
  | true =>
    rw [passwordStep]
    simp only [if_true]
    refine ⟨akeys_aerase_nodup _ hnd, fun kv hkv => hfix kv (mem_aerase hkv),
      ?_, ?_, ?_, ?_, ?_, ?_, ?_, ?_, fun _ => alookup_aerase_self R "password"⟩
    · rw [alookup_aerase_ne R (by decide)]; exact hdb
    · rw [alookup_aerase_ne R (by decide)]; exact hrs
    · rw [alookup_aerase_ne R (by decide)]; exact hname
    · rw [alookup_aerase_ne R (by decide)]; exact ha
    · rw [alookup_aerase_ne R (by decide)]; exact hh
    · rw [alookup_aerase_ne R (by decide)]; exact hp
    · rw [alookup_aerase_ne R (by decide)]; exact hu
    · rw [alookup_aerase_ne R (by decide)]; exact hr

/-- A dict whose keys are `pyLower`-fixed and duplicate-free is unchanged by
prefix-less key extraction. -/
theorem extract_fixed {r0 : PSettings} (hnd : (akeys r0).Nodup)
    (hfix : ∀ kv ∈ r0, pyLower kv.1 = kv.1) :
    extractSettings r0 Option.none = r0 := by
  have hmap : r0.map (fun kv => pyLower kv.1) = akeys r0 := by
    rw [akeys]
    exact List.map_congr_left (fun kv hkv => hfix kv hkv)
  have hmap2 : r0.map (fun kv => (pyLower kv.1, kv.2)) = r0 := by
    have hid : ∀ kv ∈ r0, (pyLower kv.1, kv.2) = kv := by
      intro kv hkv
      have h := hfix kv hkv
      obtain ⟨k, v⟩ := kv
      rw [Prod.mk.injEq]
      exact ⟨h, rfl⟩
    calc r0.map (fun kv => (pyLower kv.1, kv.2)) = r0.map id := List.map_congr_left hid
      _ = r0 := List.map_id r0
  rw [extractSettings]
  rw [extract_append_fresh r0 [] (fun kv _ => rfl) (by rw [hmap]; exact hnd)]
  rw [List.nil_append, hmap2]

/-- A `GoodBase` dict is a fixed point of prefix-less resolution. -/
theorem resolveDict_fixed {r0 : PSettings} {rp : Bool} (hg : GoodBase r0 rp) :
    resolveDict r0 Option.none rp = r0 := by
  obtain ⟨va, hva⟩ := Option.isSome_iff_exists.mp hg.has_alias
  obtain ⟨vh, hvh⟩ := Option.isSome_iff_exists.mp hg.has_host
  obtain ⟨vp, hvp⟩ := Option.isSome_iff_exists.mp hg.has_port
  obtain ⟨vu, hvu⟩ := Option.isSome_iff_exists.mp hg.has_user
  obtain ⟨vr, hvr⟩ := Option.isSome_iff_exists.mp hg.has_rpref
  have h1 : nameStep r0 = r0 := by
    rw [nameStep, hg.no_db]
    exact ainsert_lookup_self hg.name_test
  have h2 : defaultStep "alias" (.scalar (.str DEFAULT_CONNECTION_NAME)) r0 = r0 := by
    rw [defaultStep, hva, Option.getD_some]
    exact ainsert_lookup_self hva
  have h3 : defaultStep "host" (.scalar (.str "localhost")) r0 = r0 := by
    rw [defaultStep, hvh, Option.getD_some]
    exact ainsert_lookup_self hvh
  have h4 : defaultStep "port" (.scalar (.int 27017)) r0 = r0 := by
    rw [defaultStep, hvp, Option.getD_some]
    exact ainsert_lookup_self hvp
  have h5 : defaultStep "username" (.scalar .none) r0 = r0 := by
    rw [defaultStep, hvu, Option.getD_some]
    exact ainsert_lookup_self hvu
  have h6 : defaultStep "read_preference" (.scalar .readPrefPrimary) r0 = r0 := by
    rw [defaultStep, hvr, Option.getD_some]
    exact ainsert_lookup_self hvr
  have h7 : replicaStep r0 = r0 := by
    rw [replicaStep, hg.no_rs]
  rw [resolveDict, extract_fixed hg.nodup hg.lfix, h1, h2, h3, h4, h5, h6, h7]
  cases rp with
  | false => rfl
  | true =>
    rw [passwordStep]
    simp only [if_true]
    exact aerase_of_lookup_none (hg.no_pass rfl)

/-- A `GoodBase` dict extended by a trailing `replicaSet` entry is a fixed
point of prefix-less resolution: the second pass lower-cases the key to
`replicaset` and the rename puts it back, at the same (last) position. -/
theorem resolveDict_fixed_rs {r0 : PSettings} {v : PyVal} {rp : Bool} (hg : GoodBase r0 rp) :
    resolveDict (r0 ++ [("replicaSet", v)]) Option.none rp = r0 ++ [("replicaSet", v)] := by
  obtain ⟨va, hva⟩ := Option.isSome_iff_exists.mp hg.has_alias
  obtain ⟨vh, hvh⟩ := Option.isSome_iff_exists.mp hg.has_host
  obtain ⟨vp, hvp⟩ := Option.isSome_iff_exists.mp hg.has_port
  obtain ⟨vu, hvu⟩ := Option.isSome_iff_exists.mp hg.has_user
  obtain ⟨vr, hvr⟩ := Option.isSome_iff_exists.mp hg.has_rpref
  have hext : extractSettings (r0 ++ [("replicaSet", v)]) Option.none =
      r0 ++ [("replicaset", v)] := by
    rw [extractSettings, List.foldl_append]
    rw [show List.foldl (extractStep Option.none) [] r0 = r0 from
      extract_fixed hg.nodup hg.lfix]
    rw [List.foldl_cons, List.foldl_nil]
    show ainsert r0 (pyLower "replicaSet") v = r0 ++ [("replicaset", v)]
    rw [show pyLower "replicaSet" = "replicaset" from by decide]
    exact ainsert_of_lookup_none hg.no_rs v
  have hsingle : ∀ (k : String), k ≠ "replicaset" →
      alookup ([(("replicaset" : String), v)] : PSettings) k = Option.none := by
    intro k hk
    simp only [alookup]
    rw [if_neg (fun hh => hk hh.symm)]
  have hEdb : alookup (r0 ++ [(("replicaset" : String), v)]) "db" = Option.none := by
    rw [alookup_append_right _ hg.no_db]
    exact hsingle "db" (by decide)
  have hEname : alookup (r0 ++ [(("replicaset" : String), v)]) "name"
      = some (.scalar (.str "test")) := alookup_append_left _ hg.name_test
  have hEa : alookup (r0 ++ [(("replicaset" : String), v)]) "alias" = some va :=
    alookup_append_left _ hva
  have hEh : alookup (r0 ++ [(("replicaset" : String), v)]) "host" = some vh :=
    alookup_append_left _ hvh
  have hEp : alookup (r0 ++ [(("replicaset" : String), v)]) "port" = some vp :=
    alookup_append_left _ hvp
  have hEu : alookup (r0 ++ [(("replicaset" : String), v)]) "username" = some vu :=
    alookup_append_left _ hvu
  have hEr : alookup (r0 ++ [(("replicaset" : String), v)]) "read_preference" = some vr :=
    alookup_append_left _ hvr
  have hErs : alookup (r0 ++ [(("replicaset" : String), v)]) "replicaset" = some v := by
    rw [alookup_append_right _ hg.no_rs]
    simp [alookup]
  have herase : aerase (r0 ++ [(("replicaset" : String), v)]) "replicaset" = r0 := by
    rw [aerase_append, aerase_of_lookup_none hg.no_rs]
    simp [aerase]
  have hE1 : nameStep (r0 ++ [(("replicaset" : String), v)]) = r0 ++ [("replicaset", v)] := by
    rw [nameStep, hEdb]
    exact ainsert_lookup_self hEname
  have hE2 : defaultStep "alias" (.scalar (.str DEFAULT_CONNECTION_NAME))
      (r0 ++ [(("replicaset" : String), v)]) = r0 ++ [("replicaset", v)] := by
    rw [defaultStep, hEa, Option.getD_some]
    exact ainsert_lookup_self hEa
  have hE3 : defaultStep "host" (.scalar (.str "localhost"))
      (r0 ++ [(("replicaset" : String), v)]) = r0 ++ [("replicaset", v)] := by
    rw [defaultStep, hEh, Option.getD_some]
    exact ainsert_lookup_self hEh
  have hE4 : defaultStep "port" (.scalar (.int 27017))
      (r0 ++ [(("replicaset" : String), v)]) = r0 ++ [("replicaset", v)] := by
    rw [defaultStep, hEp, Option.getD_some]
    exact ainsert_lookup_self hEp
  have hE5 : defaultStep "username" (.scalar .none)
      (r0 ++ [(("replicaset" : String), v)]) = r0 ++ [("replicaset", v)] := by
    rw [defaultStep, hEu, Option.getD_some]
    exact ainsert_lookup_self hEu
  have hE6 : defaultStep "read_preference" (.scalar .readPrefPrimary)
      (r0 ++ [(("replicaset" : String), v)]) = r0 ++ [("replicaset", v)] := by
    rw [defaultStep, hEr, Option.getD_some]
    exact ainsert_lookup_self hEr
  have hE7 : replicaStep (r0 ++ [(("replicaset" : String), v)]) =
      r0 ++ [("replicaSet", v)] := by
    rw [replicaStep, hErs]
    show ainsert (aerase (r0 ++ [(("replicaset" : String), v)]) "replicaset") "replicaSet" v =
      r0 ++ [("replicaSet", v)]
    rw [herase]
    exact ainsert_of_lookup_none (lookup_none_of_lfix hg.lfix
      (show pyLower "replicaSet" ≠ "replicaSet" from by decide)) v
  rw [resolveDict, hext, hE1, hE2, hE3, hE4, hE5, hE6, hE7]
  cases rp with
  | false => rfl
  | true =>
    rw [passwordStep]
    simp only [if_true]
    rw [aerase_append, aerase_of_lookup_none (hg.no_pass rfl)]
    rfl

/-- Shape of the prefix-less resolver output when the extraction carries no
"db" key: a `GoodBase` dict, possibly extended by a trailing `replicaSet`
entry (the rename always appends at the end). -/
theorem resolveDict_shape (d : PSettings) (rp : Bool)
    (hdb : alookup (extractSettings d Option.none) "db" = Option.none) :
    ∃ r0 : PSettings, GoodBase r0 rp ∧
      (resolveDict d Option.none rp = r0 ∨
       ∃ v, resolveDict d Option.none rp = r0 ++ [("replicaSet", v)]) := by
  have hend : (akeys (extractSettings d Option.none)).Nodup := by
    rw [extractSettings]
    exact extract_nodup Option.none d [] (by simp [akeys])
  have hefix : ∀ kv ∈ extractSettings d Option.none, pyLower kv.1 = kv.1 := by
    intro kv hkv
    rw [extractSettings] at hkv
    rcases mem_extract_none d [] kv hkv with h' | ⟨kv0, _, he⟩
    · simp at h'
    · rw [he]
      exact pyLower_idem kv0.1
  set e := extractSettings d Option.none with he
  set R1 := nameStep e with hR1
  have hR1e : R1 = ainsert e "name" (.scalar (.str "test")) := by
    rw [hR1, nameStep, hdb]
  have nd1 : (akeys R1).Nodup := by
    rw [hR1e]
    exact akeys_ainsert_nodup hend
  have fix1 : ∀ kv ∈ R1, pyLower kv.1 = kv.1 := by
    rw [hR1e]
    intro kv hkv
    rcases mem_ainsert hkv with h' | h'
    · rw [h']
      decide
    · exact hefix kv h'
  have db1 : alookup R1 "db" = Option.none := by
    rw [hR1e, alookup_ainsert_ne e (by decide)]
    exact hdb
  have name1 : alookup R1 "name" = some (.scalar (.str "test")) := by
    rw [hR1e]
    exact alookup_ainsert_self e "name" _
  set R2 := defaultStep "alias" (.scalar (.str DEFAULT_CONNECTION_NAME)) R1 with hR2
  have nd2 : (akeys R2).Nodup := by
    rw [hR2]
    exact defaultStep_nodup _ _ nd1
  have fix2 : ∀ kv ∈ R2, pyLower kv.1 = kv.1 := by
    rw [hR2]
    exact defaultStep_lfix _ (by decide) fix1
  have db2 : alookup R2 "db" = Option.none := by
    rw [hR2, defaultStep_lookup_ne (by decide)]
    exact db1
  have name2 : alookup R2 "name" = some (.scalar (.str "test")) := by
    rw [hR2, defaultStep_lookup_ne (by decide)]
    exact name1
  have a2 : (alookup R2 "alias").isSome := by
    rw [hR2]
    exact defaultStep_lookup_self _ _ _
  set R3 := defaultStep "host" (.scalar (.str "localhost")) R2 with hR3
  have nd3 : (akeys R3).Nodup := by
    rw [hR3]
    exact defaultStep_nodup _ _ nd2
  have fix3 : ∀ kv ∈ R3, pyLower kv.1 = kv.1 := by
    rw [hR3]
    exact defaultStep_lfix _ (by decide) fix2
  have db3 : alookup R3 "db" = Option.none := by
    rw [hR3, defaultStep_lookup_ne (by decide)]
    exact db2
  have name3 : alookup R3 "name" = some (.scalar (.str "test")) := by
    rw [hR3, defaultStep_lookup_ne (by decide)]
    exact name2
  have a3 : (alookup R3 "alias").isSome := by
    rw [hR3, defaultStep_lookup_ne (by decide)]
    exact a2
  have h3 : (alookup R3 "host").isSome := by
    rw [hR3]
    exact defaultStep_lookup_self _ _ _
  set R4 := defaultStep "port" (.scalar (.int 27017)) R3 with hR4
  have nd4 : (akeys R4).Nodup := by
    rw [hR4]
    exact defaultStep_nodup _ _ nd3
  have fix4 : ∀ kv ∈ R4, pyLower kv.1 = kv.1 := by
    rw [hR4]
    exact defaultStep_lfix _ (by decide) fix3
  have db4 : alookup R4 "db" = Option.none := by
    rw [hR4, defaultStep_lookup_ne (by decide)]
    exact db3
  have name4 : alookup R4 "name" = some (.scalar (.str "test")) := by
    rw [hR4, defaultStep_lookup_ne (by decide)]
    exact name3
  have a4 : (alookup R4 "alias").isSome := by
    rw [hR4, defaultStep_lookup_ne (by decide)]
    exact a3
  have h4 : (alookup R4 "host").isSome := by
    rw [hR4, defaultStep_lookup_ne (by decide)]
    exact h3
  have p4 : (alookup R4 "port").isSome := by
    rw [hR4]
    exact defaultStep_lookup_self _ _ _
  set R5 := defaultStep "username" (.scalar .none) R4 with hR5
  have nd5 : (akeys R5).Nodup := by
    rw [hR5]
    exact defaultStep_nodup _ _ nd4
  have fix5 : ∀ kv ∈ R5, pyLower kv.1 = kv.1 := by
    rw [hR5]
    exact defaultStep_lfix _ (by decide) fix4
  have db5 : alookup R5 "db" = Option.none := by
    rw [hR5, defaultStep_lookup_ne (by decide)]
    exact db4
  have name5 : alookup R5 "name" = some (.scalar (.str "test")) := by
    rw [hR5, defaultStep_lookup_ne (by decide)]
    exact name4
  have a5 : (alookup R5 "alias").isSome := by
    rw [hR5, defaultStep_lookup_ne (by decide)]
    exact a4
  have h5 : (alookup R5 "host").isSome := by
    rw [hR5, defaultStep_lookup_ne (by decide)]
    exact h4
  have p5 : (alookup R5 "port").isSome := by
    rw [hR5, defaultStep_lookup_ne (by decide)]
    exact p4
  have u5 : (alookup R5 "username").isSome := by
    rw [hR5]
    exact defaultStep_lookup_self _ _ _
  set R6 := defaultStep "read_preference" (.scalar .readPrefPrimary) R5 with hR6
  have nd6 : (akeys R6).Nodup := by
    rw [hR6]
    exact defaultStep_nodup _ _ nd5
  have fix6 : ∀ kv ∈ R6, pyLower kv.1 = kv.1 := by
    rw [hR6]
    exact defaultStep_lfix _ (by decide) fix5
  have db6 : alookup R6 "db" = Option.none := by
    rw [hR6, defaultStep_lookup_ne (by decide)]
    exact db5
  have name6 : alookup R6 "name" = some (.scalar (.str "test")) := by
    rw [hR6, defaultStep_lookup_ne (by decide)]
    exact name5
  have a6 : (alookup R6 "alias").isSome := by
    rw [hR6, defaultStep_lookup_ne (by decide)]
    exact a5
  have h6 : (alookup R6 "host").isSome := by
    rw [hR6, defaultStep_lookup_ne (by decide)]
    exact h5
  have p6 : (alookup R6 "port").isSome := by
    rw [hR6, defaultStep_lookup_ne (by decide)]
    exact p5
  have u6 : (alookup R6 "username").isSome := by
    rw [hR6, defaultStep_lookup_ne (by decide)]
    exact u5
  have r6 : (alookup R6 "read_preference").isSome := by
    rw [hR6]
    exact defaultStep_lookup_self _ _ _
  have hres : resolveDict d Option.none rp = passwordStep rp (replicaStep R6) := by
    rw [resolveDict, ← he, ← hR1, ← hR2, ← hR3, ← hR4, ← hR5, ← hR6]
  cases hrs : alookup R6 "replicaset" with
  | none =>
    refine ⟨passwordStep rp R6,
      goodBase_passwordStep rp nd6 fix6 db6 hrs name6 a6 h6 p6 u6 r6, Or.inl ?_⟩
    rw [hres, show replicaStep R6 = R6 from by rw [replicaStep, hrs]]
  | some v =>
    have fixX : ∀ kv ∈ aerase R6 "replicaset", pyLower kv.1 = kv.1 :=
      fun kv hkv => fix6 kv (mem_aerase hkv)
    have hsplit : replicaStep R6 = (aerase R6 "replicaset") ++ [("replicaSet", v)] := by
      rw [replicaStep, hrs]
      show ainsert (aerase R6 "replicaset") "replicaSet" v = _
      exact ainsert_of_lookup_none
        (lookup_none_of_lfix fixX (show pyLower "replicaSet" ≠ "replicaSet" from by decide)) v
    have hpw : passwordStep rp ((aerase R6 "replicaset") ++ [("replicaSet", v)]) =
        passwordStep rp (aerase R6 "replicaset") ++ [("replicaSet", v)] := by
      cases rp with
      | false => rfl
      | true =>
        simp only [passwordStep, if_true]
        rw [aerase_append]
        rfl
    refine ⟨passwordStep rp (aerase R6 "replicaset"),
      goodBase_passwordStep rp (akeys_aerase_nodup _ nd6) fixX
        (by rw [alookup_aerase_ne R6 (by decide)]; exact db6)
        (alookup_aerase_self R6 "replicaset")
        (by rw [alookup_aerase_ne R6 (by decide)]; exact name6)
        (by rw [alookup_aerase_ne R6 (by decide)]; exact a6)
        (by rw [alookup_aerase_ne R6 (by decide)]; exact h6)
        (by rw [alookup_aerase_ne R6 (by decide)]; exact p6)
        (by rw [alookup_aerase_ne R6 (by decide)]; exact u6)
        (by rw [alookup_aerase_ne R6 (by decide)]; exact r6),
      Or.inr ⟨v, ?_⟩⟩
    rw [hres, hsplit, hpw]

/-- The input mapping (if it is one) carries no key that lower-cases to
"db". -/
def noDbKey : PyVal → Prop
  | .dict d => ∀ kv ∈ d, pyLower kv.1 ≠ "db"
  | _ => True

/-- Claim C10 (amended): prefix-less resolution is idempotent on every
non-mapping input, on the empty mapping, and on every mapping none of whose
keys lower-cases to "db" — in particular the "replicaset" → "replicaSet"
renaming survives the second lower-casing pass. (For mappings carrying a
"db" key it is NOT idempotent: see the counterexample.) -/
theorem c10_resolve_idempotent_no_db (s : PyVal) (rp : Bool) (h : noDbKey s) :
    _resolve_settings (_resolve_settings s Option.none rp) Option.none rp =
      _resolve_settings s Option.none rp := by
  cases s with
  | scalar v => rfl
  | list xs => rfl
  | dict d =>
    cases d with
    | nil => rfl
    | cons hd tl =>
      have hdb : alookup (extractSettings (hd :: tl) Option.none) "db" = Option.none := by
        cases hl : alookup (extractSettings (hd :: tl) Option.none) "db" with
        | none => rfl
        | some w =>
          have hmem := alookup_some_mem hl
          rw [extractSettings] at hmem
          rcases mem_extract_none (hd :: tl) [] _ hmem with h' | ⟨kv0, hm, he⟩
          · simp at h'
          · exact absurd (congrArg Prod.fst he).symm (h kv0 hm)
      obtain ⟨r0, hg, hcase⟩ := resolveDict_shape (hd :: tl) rp hdb
      have houter : _resolve_settings (.dict (hd :: tl)) Option.none rp =
          .dict (resolveDict (hd :: tl) Option.none rp) := rfl
      rw [houter]
      rcases hcase with hc | ⟨v, hc⟩
      · rw [hc]
        have hie : r0.isEmpty = false := by
          cases hr0 : r0 with
          | nil => exact absurd (hr0 ▸ hg.name_test) (by simp [alookup])
          | cons x xs => rfl
        simp only [_resolve_settings, hie, Bool.false_eq_true, if_false]
        rw [resolveDict_fixed hg]
      · rw [hc]
        have hie : (r0 ++ [(("replicaSet" : String), v)]).isEmpty = false := by
          cases r0 <;> rfl
        simp only [_resolve_settings, hie, Bool.false_eq_true, if_false]
        rw [resolveDict_fixed_rs hg]

/-- Witness for `c10_resolve_idempotent_no_db` at a mapping with a
mixed-case key and a "replicaset" key (and no "db" key). -/
theorem c10_resolve_idempotent_no_db_witness :
    _resolve_settings (_resolve_settings
        (.dict [("Host", .scalar (.str "h")), ("replicaset", .scalar (.str "rs"))])
        Option.none true) Option.none true =
      _resolve_settings
        (.dict [("Host", .scalar (.str "h")), ("replicaset", .scalar (.str "rs"))])
        Option.none true :=
  c10_resolve_idempotent_no_db
    (.dict [("Host", .scalar (.str "h")), ("replicaset", .scalar (.str "rs"))]) true
    (show ∀ kv ∈ ([(("Host" : String), PyVal.scalar (.str "h")),
        ("replicaset", PyVal.scalar (.str "rs"))] : PSettings),
      pyLower kv.1 ≠ "db" from by decide)
